import Mathlib

/-!
Verification development for the sammba-mri registration orchestration core
(src/sammba/registration/base.py and src/sammba/registration/cest.py).

The Python code sequences calls to external image-processing tools, derives
artifact file names, and cleans up intermediate files.  We embed it shallowly:

* a file path is a record of directory, base name and extension
  (`FPath`); `fname_presuffix` mirrors the path-derivation helper;
* the world state (`St`) is the set of files on disk plus the ordered log of
  external tool invocations issued so far;
* each external tool call is a `Call`; invoking a tool logs the call and
  creates its declared output files (spec section 4.1: black boxes that,
  given well-formed inputs, produce all declared outputs and succeed);
* Python exceptions become the `Err` type; a stage is a function
  `St -> St × Except Err result`, so state mutated before a raise survives it,
  as in Python.

Code of the repository that is not under src/ (the vendored nipype helpers
`fname_presuffix` and `Memory`, `sammba.registration.utils.fix_obliquity`,
`sammba.registration.struct.anats_to_template`, the `segmentation`
interfaces, nibabel metadata reads) is modelled from the spec; each such
definition says so in its doc comment.  Unknown tool behaviours (RATS
version probe, clip values, voxel data, slice counts, stdout of 3dWarp,
outputs of the anats-to-template collaborator) are an environment `Env`.
-/

/-- File path, split as the path-derivation helper sees it: directory,
base name, extension. -/
structure FPath where
  dir  : String
  base : String
  ext  : String
deriving DecidableEq, Repr

/-- Render a path as a single string (used where the source passes a path
into a textual argument such as a warp specification). -/
def FPath.str (p : FPath) : String :=
  p.dir ++ "/" ++ p.base ++ p.ext

/-- Modelled from the spec: PathDeriver (section 4.2) /
`nipype.utils.filemanip.fname_presuffix`, which is vendored by the
repository but not under src/.  Pure and total: appends `suffix` to the base
name, optionally moves the file to directory `newpath`, and drops the
extension when `use_ext` is false (the source then bakes the new extension
into the suffix).  The source sometimes spells the directory keyword
`new_path`; both spellings are this `newpath` argument. -/
def fname_presuffix (p : FPath) (suffix : String) (newpath : Option String := none)
    (use_ext : Bool := true) : FPath :=
  { dir := newpath.getD p.dir
    base := p.base ++ suffix
    ext := if use_ext then p.ext else "" }

/-- Python exceptions raised by the orchestration code.  `toolUnavailable`
and `invalidState` are both `ValueError` in the source, distinguished here by
their messages ("Can not locate Rats" / "Anatomical image has not been
registered"); `missingInput` is the `IOError` of `_check_inputs`;
`fileNotFound` is `os.remove` on a missing file; `attributeError` is reading
an attribute never set; `typeError` covers `os.path.join` on a tuple and a
keyword-argument collision; `unpackMismatch` is tuple unpacking of the wrong
arity; `emptyData` is numpy `max` of an empty array. -/
inductive Err where
  | toolUnavailable
  | fileNotFound (p : FPath)
  | attributeError (name : String)
  | typeError (msg : String)
  | unpackMismatch (expected got : Nat)
  | missingInput (p : FPath)
  | invalidState
  | emptyData
deriving DecidableEq, Repr

/-- One external tool invocation, with the arguments the claims talk about. -/
inductive Call where
  | clipLevel (in_file : FPath)
  | computeMask (rats : Bool) (in_file : FPath) (volume_threshold clip_val : Int) (out_file : FPath)
  | calc (in_file_a in_file_b : FPath) (expr : String) (out_file : FPath)
  | allineate (in_file reference : FPath) (warp_type : String) (out_matrix out_file : FPath)
  | allineateApply (in_file master in_matrix out_file : FPath)
  | catmatvec (in_file : FPath) (opkey : String) (out_file : FPath)
  | warp3d (in_file oblique_parent gridset out_file : FPath)
  | fixObliquity (in_file ref : FPath)
  | savetxt (out_file : FPath) (content : String)
  | zcutup (in_file : FPath) (keep : String) (out_file : FPath)
  | resample (in_file out_file : FPath)
  | qwarp (in_file base_file out_file : FPath)
  | nwarpApply (in_file master : FPath) (warp : String) (out_file : FPath)
  | zcat (in_files : List FPath) (out_file : FPath)
  | copy3d (in_file out_file : FPath)
  | unifize (in_file out_file : FPath)
  | anatsToTemplate (anat template : FPath)
deriving DecidableEq, Repr

/-- World state: files currently on disk, and the ordered log of external
tool invocations issued so far. -/
structure St where
  fs : List FPath
  calls : List Call
deriving DecidableEq, Repr

/-- A tool writing an output file: real filesystems hold one entry per path,
so creation is idempotent on the file set. -/
def createFile (s : St) (p : FPath) : St :=
  { s with fs := if p ∈ s.fs then s.fs else p :: s.fs }

/-- Append an invocation to the log. -/
def logCall (s : St) (c : Call) : St :=
  { s with calls := s.calls ++ [c] }

/-- Issue one external tool call: log it and create its declared outputs
(spec section 4.1: on success all declared outputs exist). -/
def runTool (s : St) (c : Call) (outs : List FPath) : St :=
  outs.foldl createFile (logCall s c)

/-- `os.remove`: deletes the file, raising `FileNotFoundError` when absent. -/
def removeFile (s : St) (p : FPath) : St × Except Err Unit :=
  if p ∈ s.fs then ({ s with fs := s.fs.erase p }, Except.ok ())
  else (s, Except.error (Err.fileNotFound p))

/-- Sequential `os.remove` over a list, stopping at the first failure
(the cleanup loops of the source). -/
def removeAll : List FPath → St → St × Except Err Unit
  | [], s => (s, Except.ok ())
  | p :: ps, s =>
    match removeFile s p with
    | (s1, Except.ok _) => removeAll ps s1
    | (s1, Except.error e) => (s1, Except.error e)

/-- Environment: everything the orchestration reads from outside the code
under src/ (tool probe results, image metadata, tool-produced values, and
the outputs of the anats-to-template collaborator of cest.py, which lives in
struct.py, outside src/ — modelled from the spec). -/
structure Env where
  ratsVersion : Option String
  clipVal : FPath → Int
  nSlices : FPath → Nat
  data : FPath → List Int
  warpStdout : FPath → FPath → String
  cwd : String
  anatsRegistered : FPath → FPath
  anatsPreTransform : FPath → String
  anatsTransform : FPath → String

/-- Modelled from the spec: ObliquityFixer (section 4.3) /
`sammba.registration.utils.fix_obliquity`, repository code not under src/.
With `overwrite` false it writes to a new path instead of mutating in place;
we name that path deterministically. -/
def fixObliquityPath (vol : FPath) (overwrite : Bool) : FPath :=
  if overwrite then vol else fname_presuffix vol "_oblique"

/-- State effect of `fix_obliquity`: log the call; when not overwriting,
the fixed copy is a new file. -/
def fixObliquity (s : St) (vol ref : FPath) (overwrite : Bool) : St :=
  let s1 := logCall s (Call.fixObliquity vol ref)
  if overwrite then s1 else createFile s1 (fixObliquityPath vol overwrite)

/-- Embedding of `extract_brain` (src/sammba/registration/base.py:13-79).
With the morphological strategy (`use_rats_tool`), a RATS version probe
reporting absent raises `ValueError` before anything runs; otherwise clip
level, mask computation and the mask multiplication are issued in order, and
the standalone mask file is deleted unless caching.  The mask tool's output
path is modelled by deterministic suffixing (spec section 5). -/
def extract_brain (env : Env) (head_file : FPath) (brain_volume : Int)
    (caching : Bool := false) (use_rats_tool : Bool := true)
    (s : St) : St × Except Err FPath :=
  if use_rats_tool && env.ratsVersion.isNone then
    (s, Except.error Err.toolUnavailable)
  else
    let s := logCall s (Call.clipLevel head_file)
    let clip_val := env.clipVal head_file
    let mask_out := fname_presuffix head_file "_mask"
    let s := runTool s (Call.computeMask use_rats_tool head_file brain_volume clip_val mask_out) [mask_out]
    let masked_file := fname_presuffix head_file "_brain"
    let s := runTool s (Call.calc head_file mask_out "a*b" masked_file) [masked_file]
    if caching then (s, Except.ok masked_file)
    else
      match removeFile s mask_out with
      | (s1, Except.ok _) => (s1, Except.ok masked_file)
      | (s1, Except.error e) => (s1, Except.error e)

/-- C6: with the morphological (RATS) strategy selected, a version probe
reporting the tool absent makes `extract_brain` fail with the
tool-unavailable error, with the state returned exactly as it was — no clip
level computation, no external invocation, no file touched. -/
theorem C6_extract_brain_fails_fast (env : Env) (head_file : FPath)
    (brain_volume : Int) (caching : Bool) (s : St)
    (hprobe : env.ratsVersion = none) :
    extract_brain env head_file brain_volume caching true s
      = (s, Except.error Err.toolUnavailable) := by
  simp [extract_brain, hprobe]

/-- Concrete witness for C6: a run with the probe reporting absent. -/
theorem C6_witness :
    (Env.mk none (fun _ => 0) (fun _ => 0) (fun _ => []) (fun _ _ => "") ""
        (fun p => p) (fun _ => "") (fun _ => "")).ratsVersion = none ∧
    extract_brain
      (Env.mk none (fun _ => 0) (fun _ => 0) (fun _ => []) (fun _ _ => "") ""
        (fun p => p) (fun _ => "") (fun _ => ""))
      (FPath.mk "/d" "head" ".nii") 400 false true (St.mk [FPath.mk "/d" "head" ".nii"] [])
      = (St.mk [FPath.mk "/d" "head" ".nii"] [], Except.error Err.toolUnavailable) :=
  ⟨rfl, C6_extract_brain_fails_fast _ _ _ _ _ rfl⟩

/-! Basic lemmas about the world-state operations. -/

theorem createFile_calls (s : St) (p : FPath) : (createFile s p).calls = s.calls := rfl

theorem logCall_fs (s : St) (c : Call) : (logCall s c).fs = s.fs := rfl

theorem mem_createFile_iff (s : St) (p q : FPath) :
    q ∈ (createFile s p).fs ↔ q = p ∨ q ∈ s.fs := by
  simp only [createFile]
  split <;> rename_i h
  · constructor
    · exact fun hq => Or.inr hq
    · rintro (rfl | hq) <;> [exact h; exact hq]
  · simp [List.mem_cons]

theorem createFile_nodup (s : St) (p : FPath) (h : s.fs.Nodup) :
    (createFile s p).fs.Nodup := by
  simp only [createFile]
  split <;> rename_i hm
  · exact h
  · exact List.Nodup.cons hm h

theorem foldl_createFile_calls (outs : List FPath) (s : St) :
    (outs.foldl createFile s).calls = s.calls := by
  induction outs generalizing s with
  | nil => rfl
  | cons p ps ih => simp [List.foldl_cons, ih, createFile_calls]

theorem runTool_calls (s : St) (c : Call) (outs : List FPath) :
    (runTool s c outs).calls = s.calls ++ [c] := by
  simp [runTool, foldl_createFile_calls, logCall]

theorem mem_foldl_createFile_iff (outs : List FPath) (s : St) (q : FPath) :
    q ∈ (outs.foldl createFile s).fs ↔ q ∈ outs ∨ q ∈ s.fs := by
  induction outs generalizing s with
  | nil => simp
  | cons p ps ih =>
    simp only [List.foldl_cons, ih, mem_createFile_iff, List.mem_cons]
    tauto

theorem mem_runTool_iff (s : St) (c : Call) (outs : List FPath) (q : FPath) :
    q ∈ (runTool s c outs).fs ↔ q ∈ outs ∨ q ∈ s.fs := by
  simp [runTool, mem_foldl_createFile_iff, logCall]

theorem foldl_createFile_nodup (outs : List FPath) (s : St) (h : s.fs.Nodup) :
    (outs.foldl createFile s).fs.Nodup := by
  induction outs generalizing s with
  | nil => exact h
  | cons p ps ih => exact ih _ (createFile_nodup _ _ h)

theorem runTool_nodup (s : St) (c : Call) (outs : List FPath) (h : s.fs.Nodup) :
    (runTool s c outs).fs.Nodup := foldl_createFile_nodup _ _ h

theorem fixObliquity_calls (s : St) (vol ref : FPath) (ov : Bool) :
    (fixObliquity s vol ref ov).calls = s.calls ++ [Call.fixObliquity vol ref] := by
  simp only [fixObliquity]
  split <;> simp [logCall, createFile_calls]

theorem mem_fixObliquity_iff (s : St) (vol ref : FPath) (ov : Bool) (q : FPath) :
    q ∈ (fixObliquity s vol ref ov).fs ↔
      (ov = false ∧ q = fixObliquityPath vol ov) ∨ q ∈ s.fs := by
  simp only [fixObliquity]
  cases ov <;> simp [mem_createFile_iff, logCall]

theorem fixObliquity_nodup (s : St) (vol ref : FPath) (ov : Bool) (h : s.fs.Nodup) :
    (fixObliquity s vol ref ov).fs.Nodup := by
  simp only [fixObliquity]
  cases ov <;> simp only [if_pos, if_neg, Bool.false_eq_true, ite_false, ite_true]
  · exact createFile_nodup _ _ h
  · exact h

/-! Paths derived with distinct suffixes from the same base are distinct:
the scanner needs only base-name length arithmetic. -/

theorem fpath_ne_of_base_length {p q : FPath} (h : p.base.length ≠ q.base.length) :
    p ≠ q := by
  intro he
  exact h (by rw [he])

theorem append_suffix_ne {b s1 s2 : String} (h : s1.length ≠ s2.length) :
    b ++ s1 ≠ b ++ s2 := by
  intro he
  have hl := congrArg String.length he
  rw [String.length_append, String.length_append] at hl
  omega

theorem append_ne_self {b s1 : String} (h : s1.length ≠ 0) : b ++ s1 ≠ b := by
  intro he
  have hl := congrArg String.length he
  rw [String.length_append] at hl
  omega

/-! Derived artifact paths of the rigid-body stage
(src/sammba/registration/base.py:136-182). -/

/-- Brain-extracted volume path (`fname_presuffix(head_file, suffix='_brain')`). -/
def brainPath (head : FPath) : FPath := fname_presuffix head "_brain"

/-- Standalone mask path produced by the mask tool (modelled deterministic
suffixing, spec section 5). -/
def maskPath (head : FPath) : FPath := fname_presuffix head "_mask"

/-- Matrix of the shift-rotate registration (`suffix='_shr.aff12.1D'`,
`use_ext=False`). -/
def shrMatrixPath (ref_brain : FPath) (wd : String) : FPath :=
  fname_presuffix ref_brain "_shr.aff12.1D" (some wd) false

/-- Allineated reference-brain volume (`suffix='_shr'`). -/
def shrOutPath (ref_brain : FPath) : FPath := fname_presuffix ref_brain "_shr"

/-- Inverted matrix written by `3dCatMatvec` (`suffix='INV'`). -/
def invMatrixPath (mat : FPath) (wd : String) : FPath :=
  fname_presuffix mat "INV" (some wd)

/-- Transformed moving head volume (`suffix='_shr'` on the moving head). -/
def applyOutPath (mov : FPath) (wd : String) : FPath :=
  fname_presuffix mov "_shr" (some wd)

/-- Embedding of `_rigid_body_register`
(src/sammba/registration/base.py:116-182).  Brain-extracts both heads;
computes the shift-rotate transform with `in_file` the REFERENCE brain and
`reference` the MOVING brain (the documented direction quirk); inverts that
matrix with `3dCatMatvec -I` unless the inverse file already exists; applies
the inverted matrix to the full moving head on the reference head's grid;
removes `output_files` (the allineated brain and, when created here, the
inverse matrix) unless caching; and returns the transformed moving volume
together with `rigid_transform_file` — the matrix of the registration step,
not the catmatvec output. -/
def _rigid_body_register (env : Env) (moving_head_file reference_head_file : FPath)
    (brain_volume : Int) (use_rats_tool : Bool := true)
    (write_dir : Option String := none) (caching : Bool := false)
    (s : St) : St × Except Err (FPath × FPath) :=
  let wd := write_dir.getD moving_head_file.dir
  match extract_brain env moving_head_file brain_volume caching use_rats_tool s with
  | (s, Except.error e) => (s, Except.error e)
  | (s, Except.ok moving_brain_file) =>
    match extract_brain env reference_head_file brain_volume caching use_rats_tool s with
    | (s, Except.error e) => (s, Except.error e)
    | (s, Except.ok reference_brain_file) =>
      let out_matrix := shrMatrixPath reference_brain_file wd
      let out_shr := shrOutPath reference_brain_file
      let s := runTool s
        (Call.allineate reference_brain_file moving_brain_file "shift_rotate" out_matrix out_shr)
        [out_shr, out_matrix]
      let rigid_transform_file := out_matrix
      let catmatvec_out_file := invMatrixPath rigid_transform_file wd
      let (s, output_files) :=
        if catmatvec_out_file ∈ s.fs then (s, [out_shr])
        else (runTool s (Call.catmatvec rigid_transform_file "I" catmatvec_out_file)
                [catmatvec_out_file],
              [out_shr, catmatvec_out_file])
      let apply_out := applyOutPath moving_head_file wd
      let s := runTool s
        (Call.allineateApply moving_head_file reference_head_file catmatvec_out_file apply_out)
        [apply_out]
      if caching then (s, Except.ok (apply_out, rigid_transform_file))
      else
        match removeAll output_files s with
        | (s, Except.ok _) => (s, Except.ok (apply_out, rigid_transform_file))
        | (s, Except.error e) => (s, Except.error e)

/-- Successful run of `extract_brain` without caching: the probe passed (or
the histogram strategy was selected), so clip level, mask and multiplication
are issued in order, the mask file is deleted again, and the brain-extracted
volume is the one new artifact. -/
theorem extract_brain_run (env : Env) (head : FPath) (bv : Int) (rats : Bool) (s : St)
    (hprobe : (rats && env.ratsVersion.isNone) = false) (hnd : s.fs.Nodup) :
    ∃ s1, extract_brain env head bv false rats s = (s1, Except.ok (brainPath head)) ∧
      s1.calls = s.calls ++ [Call.clipLevel head,
        Call.computeMask rats head bv (env.clipVal head) (maskPath head),
        Call.calc head (maskPath head) "a*b" (brainPath head)] ∧
      s1.fs.Nodup ∧
      (∀ q, q ∈ s1.fs ↔ q ≠ maskPath head ∧ (q = brainPath head ∨ q ∈ s.fs)) := by
  set s2 := runTool (runTool (logCall s (Call.clipLevel head))
      (Call.computeMask rats head bv (env.clipVal head) (maskPath head)) [maskPath head])
      (Call.calc head (maskPath head) "a*b" (brainPath head)) [brainPath head] with hs2
  have hmem : maskPath head ∈ s2.fs := by
    simp [hs2, mem_runTool_iff]
  have hnd2 : s2.fs.Nodup := by
    refine runTool_nodup _ _ _ (runTool_nodup _ _ _ ?_)
    simpa [logCall] using hnd
  have heq : extract_brain env head bv false rats s =
      ({ s2 with fs := s2.fs.erase (maskPath head) }, Except.ok (brainPath head)) := by
    simp only [extract_brain, hprobe, Bool.false_eq_true, if_false, maskPath, brainPath]
    simp only [removeFile]
    rw [if_pos]
    · rfl
    · exact hmem
  refine ⟨_, heq, ?_, ?_, ?_⟩
  · simp [hs2, runTool_calls, logCall]
  · exact hnd2.erase _
  · intro q
    rw [hnd2.mem_erase_iff]
    simp only [hs2, mem_runTool_iff, List.mem_singleton, logCall]
    tauto

/-! Composite artifact paths of the rigid-body stage, and distinctness facts
that follow from base-name lengths alone. -/

def rigidMatrixPath (ref : FPath) (wd : String) : FPath := shrMatrixPath (brainPath ref) wd

def rigidShrOutPath (ref : FPath) : FPath := shrOutPath (brainPath ref)

def rigidInvPath (ref : FPath) (wd : String) : FPath := invMatrixPath (rigidMatrixPath ref wd) wd

theorem inv_ne_matrix (ref : FPath) (wd : String) : rigidInvPath ref wd ≠ rigidMatrixPath ref wd := by
  apply fpath_ne_of_base_length
  simp only [rigidInvPath, invMatrixPath, fname_presuffix, String.length_append]
  have h : ("INV" : String).length = 3 := rfl
  omega

theorem inv_ne_shrOut (ref : FPath) (wd : String) : rigidInvPath ref wd ≠ rigidShrOutPath ref := by
  apply fpath_ne_of_base_length
  simp only [rigidInvPath, rigidMatrixPath, rigidShrOutPath, invMatrixPath, shrMatrixPath,
    shrOutPath, brainPath, fname_presuffix, String.length_append]
  have h1 : ("INV" : String).length = 3 := rfl
  have h2 : ("_shr.aff12.1D" : String).length = 13 := rfl
  have h3 : ("_shr" : String).length = 4 := rfl
  omega

theorem inv_ne_brain (ref q : FPath) (wd : String) (h : ref.base = q.base) :
    rigidInvPath ref wd ≠ brainPath q := by
  apply fpath_ne_of_base_length
  simp only [rigidInvPath, rigidMatrixPath, invMatrixPath, shrMatrixPath, brainPath,
    fname_presuffix, String.length_append, h]
  have h1 : ("INV" : String).length = 3 := rfl
  have h2 : ("_shr.aff12.1D" : String).length = 13 := rfl
  omega

theorem matrix_ne_shrOut (ref : FPath) (wd : String) :
    rigidMatrixPath ref wd ≠ rigidShrOutPath ref := by
  apply fpath_ne_of_base_length
  simp only [rigidMatrixPath, rigidShrOutPath, shrMatrixPath, shrOutPath, brainPath,
    fname_presuffix, String.length_append]
  have h2 : ("_shr.aff12.1D" : String).length = 13 := rfl
  have h3 : ("_shr" : String).length = 4 := rfl
  omega

theorem shrOut_ne_brain (ref : FPath) : rigidShrOutPath ref ≠ brainPath ref := by
  apply fpath_ne_of_base_length
  simp only [rigidShrOutPath, shrOutPath, brainPath, fname_presuffix, String.length_append]
  have h3 : ("_shr" : String).length = 4 := rfl
  omega

theorem matrix_ne_brain (ref : FPath) (wd : String) : rigidMatrixPath ref wd ≠ brainPath ref := by
  apply fpath_ne_of_base_length
  simp only [rigidMatrixPath, shrMatrixPath, brainPath, fname_presuffix, String.length_append]
  have h2 : ("_shr.aff12.1D" : String).length = 13 := rfl
  omega

theorem mask_ne_brain (h : FPath) : maskPath h ≠ brainPath h := by
  apply fpath_ne_of_base_length
  simp only [maskPath, brainPath, fname_presuffix, String.length_append]
  have h1 : ("_mask" : String).length = 5 := rfl
  have h2 : ("_brain" : String).length = 6 := rfl
  omega

/-- Successful fresh run of `_rigid_body_register` without caching: the full
trace of external calls, the returned pair, and a characterization of the
files left on disk. -/
theorem rigid_run (env : Env) (mov ref : FPath) (bv : Int) (rats : Bool)
    (wd0 : Option String) (wd : String) (s : St)
    (hwd : wd0.getD mov.dir = wd)
    (hprobe : (rats && env.ratsVersion.isNone) = false)
    (hnd : s.fs.Nodup)
    (hfresh : rigidInvPath ref wd ∉ s.fs)
    (hinvmb : rigidInvPath ref wd ≠ brainPath mov) :
    ∃ s1, _rigid_body_register env mov ref bv rats wd0 false s
        = (s1, Except.ok (applyOutPath mov wd, rigidMatrixPath ref wd)) ∧
      s1.calls = s.calls ++ [
        Call.clipLevel mov, Call.computeMask rats mov bv (env.clipVal mov) (maskPath mov),
        Call.calc mov (maskPath mov) "a*b" (brainPath mov),
        Call.clipLevel ref, Call.computeMask rats ref bv (env.clipVal ref) (maskPath ref),
        Call.calc ref (maskPath ref) "a*b" (brainPath ref),
        Call.allineate (brainPath ref) (brainPath mov) "shift_rotate"
          (rigidMatrixPath ref wd) (rigidShrOutPath ref),
        Call.catmatvec (rigidMatrixPath ref wd) "I" (rigidInvPath ref wd),
        Call.allineateApply mov ref (rigidInvPath ref wd) (applyOutPath mov wd)] ∧
      s1.fs.Nodup ∧
      (∀ q, q ∈ s1.fs ↔ q ≠ rigidInvPath ref wd ∧ q ≠ rigidShrOutPath ref ∧
        (q = applyOutPath mov wd ∨ q = rigidMatrixPath ref wd ∨
          (q ≠ maskPath ref ∧ (q = brainPath ref ∨
            (q ≠ maskPath mov ∧ (q = brainPath mov ∨ q ∈ s.fs)))))) := by
  obtain ⟨sA, hA, hAcalls, hAnd, hAmem⟩ := extract_brain_run env mov bv rats s hprobe hnd
  obtain ⟨sB, hB, hBcalls, hBnd, hBmem⟩ := extract_brain_run env ref bv rats sA hprobe hAnd
  set s3 := runTool sB
      (Call.allineate (brainPath ref) (brainPath mov) "shift_rotate"
        (rigidMatrixPath ref wd) (rigidShrOutPath ref))
      [rigidShrOutPath ref, rigidMatrixPath ref wd] with hs3
  have hinv3 : rigidInvPath ref wd ∉ s3.fs := by
    rw [hs3, mem_runTool_iff]
    intro hcon
    rcases hcon with h | h
    · simp only [List.mem_cons, List.mem_singleton, List.not_mem_nil, or_false] at h
      rcases h with h | h
      · exact inv_ne_shrOut ref wd h
      · exact inv_ne_matrix ref wd h
    · rw [hBmem] at h
      rcases h.2 with h2 | h2
      · exact inv_ne_brain ref ref wd rfl h2
      · rw [hAmem] at h2
        rcases h2.2 with h3 | h3
        · exact hinvmb h3
        · exact hfresh h3
  set s4 := runTool s3 (Call.catmatvec (rigidMatrixPath ref wd) "I" (rigidInvPath ref wd))
      [rigidInvPath ref wd] with hs4
  set s5 := runTool s4
      (Call.allineateApply mov ref (rigidInvPath ref wd) (applyOutPath mov wd))
      [applyOutPath mov wd] with hs5
  have hnd5 : s5.fs.Nodup := by
    refine runTool_nodup _ _ _ (runTool_nodup _ _ _ (runTool_nodup _ _ _ hBnd))
  have hshr5 : rigidShrOutPath ref ∈ s5.fs := by
    rw [hs5, mem_runTool_iff, hs4, mem_runTool_iff, hs3, mem_runTool_iff]
    simp only [List.mem_cons, List.mem_singleton, List.not_mem_nil, or_false]
    tauto
  have hinv5 : rigidInvPath ref wd ∈ s5.fs := by
    rw [hs5, mem_runTool_iff, hs4, mem_runTool_iff]
    simp only [List.mem_cons, List.mem_singleton, List.not_mem_nil, or_false]
    tauto
  have hinv5e : rigidInvPath ref wd ∈ s5.fs.erase (rigidShrOutPath ref) := by
    rw [List.mem_erase_of_ne (inv_ne_shrOut ref wd)]
    exact hinv5
  have hrm : removeAll [rigidShrOutPath ref, rigidInvPath ref wd] s5
      = ({ s5 with fs := (s5.fs.erase (rigidShrOutPath ref)).erase (rigidInvPath ref wd) },
         Except.ok ()) := by
    simp only [removeAll, removeFile, if_pos hshr5]
    rw [if_pos hinv5e]
  have heq : _rigid_body_register env mov ref bv rats wd0 false s
      = ({ s5 with fs := (s5.fs.erase (rigidShrOutPath ref)).erase (rigidInvPath ref wd) },
         Except.ok (applyOutPath mov wd, rigidMatrixPath ref wd)) := by
    simp only [_rigid_body_register, hwd]
    rw [hA]
    dsimp only
    rw [hB]
    dsimp only
    rw [show shrMatrixPath (brainPath ref) wd = rigidMatrixPath ref wd from rfl,
        show shrOutPath (brainPath ref) = rigidShrOutPath ref from rfl,
        show invMatrixPath (rigidMatrixPath ref wd) wd = rigidInvPath ref wd from rfl]
    rw [if_neg hinv3]
    dsimp only
    rw [hrm]
    rfl
  refine ⟨_, heq, ?_, ?_, ?_⟩
  · show s5.calls = _
    rw [hs5, runTool_calls, hs4, runTool_calls, hs3, runTool_calls, hBcalls, hAcalls]
    simp
  · exact (hnd5.erase _).erase _
  · intro q
    show q ∈ (s5.fs.erase (rigidShrOutPath ref)).erase (rigidInvPath ref wd) ↔ _
    rw [((hnd5.erase _)).mem_erase_iff, hnd5.mem_erase_iff]
    rw [hs5, mem_runTool_iff, hs4, mem_runTool_iff, hs3, mem_runTool_iff]
    simp only [List.mem_singleton, List.mem_cons, List.not_mem_nil, or_false]
    rw [hBmem, hAmem]
    constructor
    · rintro ⟨h1, h2, h3⟩
      refine ⟨h1, h2, ?_⟩
      rcases h3 with h | h | h
      · exact Or.inl h
      · exact absurd h h1
      · rcases h with h | h
        · rcases h with h | h
          · exact absurd h h2
          · exact Or.inr (Or.inl h)
        · exact Or.inr (Or.inr h)
    · rintro ⟨h1, h2, h3⟩
      refine ⟨h1, h2, ?_⟩
      rcases h3 with h | h | h
      · exact Or.inl h
      · exact Or.inr (Or.inr (Or.inl (Or.inr h)))
      · exact Or.inr (Or.inr (Or.inr h))

-- Decidable equality for `Except`, used to evaluate concrete runs.
deriving instance DecidableEq for Except

/-- Concrete environment for witnesses: RATS present, trivial metadata. -/
def envC : Env :=
  { ratsVersion := some "v1", clipVal := fun _ => 100, nSlices := fun _ => 2,
    data := fun _ => [1], warpStdout := fun _ _ => "transform log", cwd := "/cwd",
    anatsRegistered := fun p => p, anatsPreTransform := fun _ => "pre",
    anatsTransform := fun _ => "warp" }

/-- Concrete moving head volume. -/
def movC : FPath := ⟨"/d", "m", ".nii"⟩

/-- Concrete reference head volume. -/
def refC : FPath := ⟨"/d", "r", ".nii"⟩

/-- Concrete starting state: both heads exist, nothing has run. -/
def stC : St := ⟨[movC, refC], []⟩

/-- C1 counterexample: in a completing fresh run of `_rigid_body_register`
the returned matrix is `rigid_transform_file`, the matrix emitted by the
shift-rotate registration step — the matrix-inversion step's output is a
different file (which the run even deletes), so the claim that the returned
matrix is the output of the matrix-inversion step is false. -/
theorem C1_counterexample :
    (_rigid_body_register envC movC refC 400 true none false stC).2
        = Except.ok (applyOutPath movC "/d", rigidMatrixPath refC "/d") ∧
    Call.catmatvec (rigidMatrixPath refC "/d") "I" (rigidInvPath refC "/d")
        ∈ (_rigid_body_register envC movC refC 400 true none false stC).1.calls ∧
    rigidMatrixPath refC "/d" ≠ rigidInvPath refC "/d" ∧
    rigidInvPath refC "/d" ∉ (_rigid_body_register envC movC refC 400 true none false stC).1.fs := by
  refine ⟨by decide, by decide, by decide, by decide⟩

/-- C1 (amended): in every completing fresh run of `_rigid_body_register`,
the rigid transform is computed FROM the reference brain TO the moving brain
(the registration call has `in_file` the reference brain and `reference` the
moving brain), that matrix is inverted by `3dCatMatvec -I`, the inverted
matrix is applied to the full moving head volume on the reference head's
grid (`master`), and the matrix returned alongside the transformed moving
volume is the forward matrix emitted by the registration step — already the
reference-to-moving map — not the output of the matrix-inversion step. -/
theorem C1_rigid_direction_and_returned_matrix (env : Env) (mov ref : FPath)
    (bv : Int) (rats : Bool) (wd0 : Option String) (wd : String) (s : St)
    (hwd : wd0.getD mov.dir = wd)
    (hprobe : (rats && env.ratsVersion.isNone) = false)
    (hnd : s.fs.Nodup)
    (hfresh : rigidInvPath ref wd ∉ s.fs)
    (hinvmb : rigidInvPath ref wd ≠ brainPath mov) :
    ∃ s1, _rigid_body_register env mov ref bv rats wd0 false s
        = (s1, Except.ok (applyOutPath mov wd, rigidMatrixPath ref wd)) ∧
      s1.calls = s.calls ++ [
        Call.clipLevel mov, Call.computeMask rats mov bv (env.clipVal mov) (maskPath mov),
        Call.calc mov (maskPath mov) "a*b" (brainPath mov),
        Call.clipLevel ref, Call.computeMask rats ref bv (env.clipVal ref) (maskPath ref),
        Call.calc ref (maskPath ref) "a*b" (brainPath ref),
        Call.allineate (brainPath ref) (brainPath mov) "shift_rotate"
          (rigidMatrixPath ref wd) (rigidShrOutPath ref),
        Call.catmatvec (rigidMatrixPath ref wd) "I" (rigidInvPath ref wd),
        Call.allineateApply mov ref (rigidInvPath ref wd) (applyOutPath mov wd)] ∧
      rigidMatrixPath ref wd ≠ rigidInvPath ref wd := by
  obtain ⟨s1, h1, h2, _, _⟩ := rigid_run env mov ref bv rats wd0 wd s hwd hprobe hnd hfresh hinvmb
  exact ⟨s1, h1, h2, (inv_ne_matrix ref wd).symm⟩

/-- Concrete witness for C1: all hypotheses hold at the sample inputs and
the amended conclusion follows. -/
theorem C1_witness :
    ((true && envC.ratsVersion.isNone) = false ∧ stC.fs.Nodup ∧
      rigidInvPath refC "/d" ∉ stC.fs ∧ rigidInvPath refC "/d" ≠ brainPath movC) ∧
    (∃ s1, _rigid_body_register envC movC refC 400 true none false stC
        = (s1, Except.ok (applyOutPath movC "/d", rigidMatrixPath refC "/d")) ∧
      s1.calls = stC.calls ++ [
        Call.clipLevel movC, Call.computeMask true movC 400 (envC.clipVal movC) (maskPath movC),
        Call.calc movC (maskPath movC) "a*b" (brainPath movC),
        Call.clipLevel refC, Call.computeMask true refC 400 (envC.clipVal refC) (maskPath refC),
        Call.calc refC (maskPath refC) "a*b" (brainPath refC),
        Call.allineate (brainPath refC) (brainPath movC) "shift_rotate"
          (rigidMatrixPath refC "/d") (rigidShrOutPath refC),
        Call.catmatvec (rigidMatrixPath refC "/d") "I" (rigidInvPath refC "/d"),
        Call.allineateApply movC refC (rigidInvPath refC "/d") (applyOutPath movC "/d")] ∧
      rigidMatrixPath refC "/d" ≠ rigidInvPath refC "/d") :=
  ⟨⟨rfl, by decide, by decide, by decide⟩,
    C1_rigid_direction_and_returned_matrix envC movC refC 400 true none "/d" stC
      rfl rfl (by decide) (by decide) (by decide)⟩

/-- C5 counterexample: a completing fresh run of `_rigid_body_register` with
caching disabled leaves the extracted moving-brain volume on disk even
though it is an intermediate file and not one of the two returned outputs,
so the claim that every intermediate file (including both extracted brain
volumes) is deleted before return is false. -/
theorem C5_counterexample :
    (_rigid_body_register envC movC refC 400 true none false stC).2
        = Except.ok (applyOutPath movC "/d", rigidMatrixPath refC "/d") ∧
    brainPath movC ∈ (_rigid_body_register envC movC refC 400 true none false stC).1.fs ∧
    brainPath movC ≠ applyOutPath movC "/d" ∧
    brainPath movC ≠ rigidMatrixPath refC "/d" := by
  refine ⟨by decide, by decide, by decide, by decide⟩

/-- C5 (amended): in every completing fresh run of `_rigid_body_register`
with caching disabled, the intermediate files the stage itself collected —
the allineated reference-brain volume and the inverted transform file — are
deleted before return, but the two extracted brain volumes are NOT deleted:
they remain on disk alongside the returned outputs. -/
theorem C5_brains_survive_cleanup (env : Env) (mov ref : FPath)
    (bv : Int) (rats : Bool) (wd0 : Option String) (wd : String) (s : St)
    (hwd : wd0.getD mov.dir = wd)
    (hprobe : (rats && env.ratsVersion.isNone) = false)
    (hnd : s.fs.Nodup)
    (hfresh : rigidInvPath ref wd ∉ s.fs)
    (hinvmb : rigidInvPath ref wd ≠ brainPath mov)
    (hmb_shr : brainPath mov ≠ rigidShrOutPath ref)
    (hmb_rm : brainPath mov ≠ maskPath ref) :
    ∃ s1, _rigid_body_register env mov ref bv rats wd0 false s
        = (s1, Except.ok (applyOutPath mov wd, rigidMatrixPath ref wd)) ∧
      brainPath mov ∈ s1.fs ∧ brainPath ref ∈ s1.fs ∧
      rigidShrOutPath ref ∉ s1.fs ∧ rigidInvPath ref wd ∉ s1.fs := by
  obtain ⟨s1, h1, _, _, hmem⟩ := rigid_run env mov ref bv rats wd0 wd s hwd hprobe hnd hfresh hinvmb
  refine ⟨s1, h1, ?_, ?_, ?_, ?_⟩
  · rw [hmem]
    exact ⟨Ne.symm hinvmb, hmb_shr,
      Or.inr (Or.inr ⟨hmb_rm, Or.inr ⟨Ne.symm (mask_ne_brain mov), Or.inl rfl⟩⟩)⟩
  · rw [hmem]
    exact ⟨Ne.symm (inv_ne_brain ref ref wd rfl), Ne.symm (shrOut_ne_brain ref),
      Or.inr (Or.inr ⟨Ne.symm (mask_ne_brain ref), Or.inl rfl⟩)⟩
  · rw [hmem]
    rintro ⟨-, h2, -⟩
    exact h2 rfl
  · rw [hmem]
    rintro ⟨h1x, -, -⟩
    exact h1x rfl

/-- Concrete witness for C5: all hypotheses hold at the sample inputs and
the amended conclusion follows. -/
theorem C5_witness :
    ((true && envC.ratsVersion.isNone) = false ∧ stC.fs.Nodup ∧
      rigidInvPath refC "/d" ∉ stC.fs ∧ rigidInvPath refC "/d" ≠ brainPath movC ∧
      brainPath movC ≠ rigidShrOutPath refC ∧ brainPath movC ≠ maskPath refC) ∧
    (∃ s1, _rigid_body_register envC movC refC 400 true none false stC
        = (s1, Except.ok (applyOutPath movC "/d", rigidMatrixPath refC "/d")) ∧
      brainPath movC ∈ s1.fs ∧ brainPath refC ∈ s1.fs ∧
      rigidShrOutPath refC ∉ s1.fs ∧ rigidInvPath refC "/d" ∉ s1.fs) :=
  ⟨⟨rfl, by decide, by decide, by decide, by decide, by decide⟩,
    C5_brains_survive_cleanup envC movC refC 400 true none "/d" stC
      rfl rfl (by decide) (by decide) (by decide) (by decide) (by decide)⟩

/-! Embedding of `_warp` (src/sammba/registration/base.py:185-219). -/

/-- Warped volume path (`suffix='_warped'`, `newpath=write_dir`). -/
def warpedPath (to_warp : FPath) (wd : String) : FPath :=
  fname_presuffix to_warp "_warped" (some wd)

/-- Matrix artifact derived from the warped file
(`suffix='_warp.mat'`, `use_ext=False`, `newpath=write_dir`). -/
def warpMatPath (to_warp : FPath) (wd : String) : FPath :=
  fname_presuffix (warpedPath to_warp wd) "_warp.mat" (some wd) false

/-- Embedding of `_warp`: runs `3dWarp` of the source onto the reference
grid, fixes the obliquity from the reference, then persists the warp run's
textual transform log into the matrix artifact — skipping the write when
that file already exists — and returns the oblique-fixed volume and the
matrix path. -/
def _warp (env : Env) (to_warp_file reference_file : FPath)
    (write_dir : Option String := none) (caching : Bool := false)
    (overwrite : Bool := true) (s : St) : St × Except Err (FPath × FPath) :=
  let wd := write_dir.getD to_warp_file.dir
  let warped_file := warpedPath to_warp_file wd
  let s := runTool s
    (Call.warp3d to_warp_file reference_file reference_file warped_file) [warped_file]
  let warped_oblique_file := fixObliquityPath warped_file overwrite
  let s := fixObliquity s warped_file reference_file overwrite
  let mat_file := warpMatPath to_warp_file wd
  if mat_file ∈ s.fs then (s, Except.ok (warped_oblique_file, mat_file))
  else
    let s := runTool s
      (Call.savetxt mat_file (env.warpStdout to_warp_file reference_file)) [mat_file]
    (s, Except.ok (warped_oblique_file, mat_file))

/-- Number of transform-log writes targeting `p` in a call log. -/
def savetxtCount (cs : List Call) (p : FPath) : Nat :=
  cs.countP (fun c => match c with
    | Call.savetxt q _ => q == p
    | _ => false)

theorem savetxtCount_append (cs ds : List Call) (p : FPath) :
    savetxtCount (cs ++ ds) p = savetxtCount cs p + savetxtCount ds p := by
  simp [savetxtCount, List.countP_append]

theorem mat_ne_warped (p : FPath) (wd : String) : warpMatPath p wd ≠ warpedPath p wd := by
  apply fpath_ne_of_base_length
  simp only [warpMatPath, warpedPath, fname_presuffix, String.length_append]
  have h : ("_warp.mat" : String).length = 9 := rfl
  omega

theorem mat_ne_oblique (p : FPath) (wd : String) (ov : Bool) :
    warpMatPath p wd ≠ fixObliquityPath (warpedPath p wd) ov := by
  cases ov
  · apply fpath_ne_of_base_length
    simp only [warpMatPath, warpedPath, fixObliquityPath, Bool.false_eq_true, if_false,
      fname_presuffix, String.length_append]
    have h1 : ("_warp.mat" : String).length = 9 := rfl
    have h2 : ("_oblique" : String).length = 8 := rfl
    omega
  · simpa [fixObliquityPath] using mat_ne_warped p wd

/-- C7: the transform-log persistence step of `_warp` is idempotent: when
the matrix artifact already exists the write is skipped and the file is left
in place with no new log-write call, and a pair of identical `_warp` calls
starting from a state without the artifact performs exactly one log write in
total (the first call writes, the second skips). -/
theorem C7_warp_mat_written_once (env : Env) (to_warp ref : FPath)
    (wd0 : Option String) (wd : String) (caching overwrite : Bool) (s : St)
    (hwd : wd0.getD to_warp.dir = wd) :
    (warpMatPath to_warp wd ∈ s.fs →
      ∃ s1, _warp env to_warp ref wd0 caching overwrite s
          = (s1, Except.ok (fixObliquityPath (warpedPath to_warp wd) overwrite,
                            warpMatPath to_warp wd)) ∧
        savetxtCount s1.calls (warpMatPath to_warp wd)
          = savetxtCount s.calls (warpMatPath to_warp wd) ∧
        warpMatPath to_warp wd ∈ s1.fs) ∧
    (warpMatPath to_warp wd ∉ s.fs →
      savetxtCount ((_warp env to_warp ref wd0 caching overwrite
          ((_warp env to_warp ref wd0 caching overwrite s).1)).1).calls
          (warpMatPath to_warp wd)
        = savetxtCount s.calls (warpMatPath to_warp wd) + 1) := by
  have hself : savetxtCount
      [Call.warp3d to_warp ref ref (warpedPath to_warp wd),
       Call.fixObliquity (warpedPath to_warp wd) ref] (warpMatPath to_warp wd) = 0 := by
    simp [savetxtCount]
  have hone : savetxtCount
      [Call.savetxt (warpMatPath to_warp wd) (env.warpStdout to_warp ref)]
      (warpMatPath to_warp wd) = 1 := by
    simp [savetxtCount]
  constructor
  · intro hmem
    have hmem2 : warpMatPath to_warp wd ∈
        (fixObliquity (runTool s (Call.warp3d to_warp ref ref (warpedPath to_warp wd))
          [warpedPath to_warp wd]) (warpedPath to_warp wd) ref overwrite).fs := by
      rw [mem_fixObliquity_iff, mem_runTool_iff]
      exact Or.inr (Or.inr hmem)
    refine ⟨fixObliquity (runTool s (Call.warp3d to_warp ref ref (warpedPath to_warp wd))
        [warpedPath to_warp wd]) (warpedPath to_warp wd) ref overwrite, ?_, ?_, ?_⟩
    · simp only [_warp, hwd]
      rw [if_pos hmem2]
    · rw [fixObliquity_calls, runTool_calls, List.append_assoc, savetxtCount_append]
      simp [savetxtCount]
    · exact hmem2
  · intro hmem
    have hmem2 : warpMatPath to_warp wd ∉
        (fixObliquity (runTool s (Call.warp3d to_warp ref ref (warpedPath to_warp wd))
          [warpedPath to_warp wd]) (warpedPath to_warp wd) ref overwrite).fs := by
      rw [mem_fixObliquity_iff, mem_runTool_iff]
      rintro (⟨-, h⟩ | h | h)
      · exact mat_ne_oblique to_warp wd overwrite h
      · rw [List.mem_singleton] at h
        exact mat_ne_warped to_warp wd h
      · exact hmem h
    have hrun1 : _warp env to_warp ref wd0 caching overwrite s
        = (runTool (fixObliquity (runTool s
              (Call.warp3d to_warp ref ref (warpedPath to_warp wd))
              [warpedPath to_warp wd]) (warpedPath to_warp wd) ref overwrite)
            (Call.savetxt (warpMatPath to_warp wd) (env.warpStdout to_warp ref))
            [warpMatPath to_warp wd],
           Except.ok (fixObliquityPath (warpedPath to_warp wd) overwrite,
                      warpMatPath to_warp wd)) := by
      simp only [_warp, hwd]
      rw [if_neg hmem2]
    set s1 := runTool (fixObliquity (runTool s
        (Call.warp3d to_warp ref ref (warpedPath to_warp wd))
        [warpedPath to_warp wd]) (warpedPath to_warp wd) ref overwrite)
        (Call.savetxt (warpMatPath to_warp wd) (env.warpStdout to_warp ref))
        [warpMatPath to_warp wd] with hs1
    have hmem1 : warpMatPath to_warp wd ∈ s1.fs := by
      rw [hs1, mem_runTool_iff]
      exact Or.inl (List.mem_singleton.mpr rfl)
    have hmem3 : warpMatPath to_warp wd ∈
        (fixObliquity (runTool s1 (Call.warp3d to_warp ref ref (warpedPath to_warp wd))
          [warpedPath to_warp wd]) (warpedPath to_warp wd) ref overwrite).fs := by
      rw [mem_fixObliquity_iff, mem_runTool_iff]
      exact Or.inr (Or.inr hmem1)
    have hrun2 : _warp env to_warp ref wd0 caching overwrite s1
        = (fixObliquity (runTool s1 (Call.warp3d to_warp ref ref (warpedPath to_warp wd))
            [warpedPath to_warp wd]) (warpedPath to_warp wd) ref overwrite,
           Except.ok (fixObliquityPath (warpedPath to_warp wd) overwrite,
                      warpMatPath to_warp wd)) := by
      simp only [_warp, hwd]
      rw [if_pos hmem3]
    rw [hrun1]
    dsimp only
    rw [hrun2]
    dsimp only
    rw [fixObliquity_calls, runTool_calls, hs1, runTool_calls, fixObliquity_calls,
      runTool_calls]
    simp only [List.append_assoc, savetxtCount_append, hself, hone]
    simp [savetxtCount]

/-- Concrete witness for C7: sample inputs; the matrix file is absent at the
start, so the first call writes the log and a repeated call skips. -/
theorem C7_witness :
    ((none : Option String).getD movC.dir = "/d") ∧
    (warpMatPath movC "/d" ∈ stC.fs →
      ∃ s1, _warp envC movC refC none false true stC
          = (s1, Except.ok (fixObliquityPath (warpedPath movC "/d") true,
                            warpMatPath movC "/d")) ∧
        savetxtCount s1.calls (warpMatPath movC "/d")
          = savetxtCount stC.calls (warpMatPath movC "/d") ∧
        warpMatPath movC "/d" ∈ s1.fs) ∧
    (warpMatPath movC "/d" ∉ stC.fs →
      savetxtCount ((_warp envC movC refC none false true
          ((_warp envC movC refC none false true stC).1)).1).calls
          (warpMatPath movC "/d")
        = savetxtCount stC.calls (warpMatPath movC "/d") + 1) :=
  ⟨rfl,
    (C7_warp_mat_written_once envC movC refC none "/d" false true stC rfl).1,
    (C7_warp_mat_written_once envC movC refC none "/d" false true stC rfl).2⟩

/-! Embedding of `_transform_to_template`
(src/sammba/registration/base.py:447-521). -/

/-- The single-quote character, as the source wraps the warp specification
in literal quotes. -/
def quoteS : String := String.singleton (Char.ofNat 39)

/-- Normalized output path (`suffix='_normalized'`). -/
def normalizedPath (p : FPath) : FPath := fname_presuffix p "_normalized"

/-- Resampled template path (the resample tool's deterministic output,
spec section 5). -/
def resampledTemplatePath (t : FPath) : FPath := fname_presuffix t "_resampled"

/-- Embedding of `_transform_to_template`: optionally resamples the template
to `voxel_size`, joins the ordered `transforms` with spaces into one quoted
warp specification string, and applies it in a single `3dNwarpApply` pass
against the (optionally resampled) template grid.  There is no check on
`transforms`: an empty chain yields the degenerate specification of two
quotes and the pass still runs. -/
def _transform_to_template (env : Env) (to_register_filename template_filename : FPath)
    (write_dir : String) (transforms : List String)
    (voxel_size : Option (Int × Int × Int) := none) (caching : Bool := false)
    (s : St) : St × Except Err FPath :=
  let normalized_filename := normalizedPath to_register_filename
  let sr :=
    match voxel_size with
    | none => (s, template_filename)
    | some _ =>
      (runTool s (Call.resample template_filename (resampledTemplatePath template_filename))
        [resampledTemplatePath template_filename],
       resampledTemplatePath template_filename)
  let s := sr.1
  let resampled_template_filename := sr.2
  let warp := quoteS ++ String.intercalate " " transforms ++ quoteS
  let s := runTool s
    (Call.nwarpApply to_register_filename resampled_template_filename warp normalized_filename)
    [normalized_filename]
  (s, Except.ok normalized_filename)

/-- C3 counterexample: called with an EMPTY transform chain (and a target
voxel size), `_transform_to_template` does not fail at all — no
`TransformChainError` exists anywhere in the code — it resamples the
template and then applies the degenerate quoted-empty warp specification in
its single resampling pass.  This falsifies the claim that an empty chain
fails before any resampling. -/
theorem C3_counterexample :
    (_transform_to_template envC movC refC "/wd" [] (some (1, 1, 1)) false stC).2
        = Except.ok (normalizedPath movC) ∧
    (_transform_to_template envC movC refC "/wd" [] (some (1, 1, 1)) false stC).1.calls
        = stC.calls ++
          [Call.resample refC (resampledTemplatePath refC),
           Call.nwarpApply movC (resampledTemplatePath refC) (quoteS ++ quoteS)
             (normalizedPath movC)] := by
  constructor
  · rfl
  · decide

/-- C3 (amended): `_transform_to_template` never raises on any chain; it
composes the ordered transforms into one space-joined, quoted warp
specification string and applies them in one `3dNwarpApply` pass against the
(optionally resampled) template grid; the empty chain degenerates to the
two-quote specification instead of being rejected. -/
theorem C3_single_pass_composition (env : Env) (to_register template : FPath)
    (wd : String) (transforms : List String) (voxel_size : Option (Int × Int × Int))
    (caching : Bool) (s : St) :
    (_transform_to_template env to_register template wd transforms voxel_size caching s).2
        = Except.ok (normalizedPath to_register) ∧
    (_transform_to_template env to_register template wd transforms voxel_size caching s).1.calls
        = s.calls ++
          (match voxel_size with
            | none => []
            | some _ => [Call.resample template (resampledTemplatePath template)]) ++
          [Call.nwarpApply to_register
            (match voxel_size with
              | none => template
              | some _ => resampledTemplatePath template)
            (quoteS ++ String.intercalate " " transforms ++ quoteS)
            (normalizedPath to_register)] := by
  cases voxel_size with
  | none =>
    constructor
    · rfl
    · simp [_transform_to_template, runTool_calls]
  | some vs =>
    constructor
    · rfl
    · simp [_transform_to_template, runTool_calls]

/-! Embedding of `CESTSession` (src/sammba/registration/cest.py). -/

/-- Session state: the constructor parameters plus the dynamically set
result attributes, each `none` while unset (Python `hasattr` is `isSome`).
The `func` field is read by `coregister` (cest.py:128) but set by no
constructor or method, so it stays `none` for every session the class
builds. -/
structure CESTSession where
  cest : FPath
  anat : FPath
  brain_volume : Option Int := none
  output_dir : Option String := none
  func : Option FPath := none
  coreg_anat_ : Option FPath := none
  coreg_transform_ : Option FPath := none
  template_ : Option FPath := none
  registered_anat_ : Option FPath := none
  registered_cest_ : Option FPath := none
deriving DecidableEq, Repr

/-- The `CESTSession.__init__` constructor (cest.py:34-39): sets only
`cest`, `anat`, `brain_volume` and `output_dir`; every other attribute —
`func` included — is absent. -/
def CESTSession.mkSession (cest anat : FPath) (brain_volume : Option Int)
    (output_dir : Option String) : CESTSession :=
  { cest := cest, anat := anat, brain_volume := brain_volume, output_dir := output_dir }

/-- `CESTSession._check_inputs` (cest.py:41-48): both input paths must name
existing files, else `IOError`. -/
def _check_inputs (s : St) (sess : CESTSession) : Except Err Unit :=
  if sess.cest ∈ s.fs then
    if sess.anat ∈ s.fs then Except.ok ()
    else Except.error (Err.missingInput sess.anat)
  else Except.error (Err.missingInput sess.cest)

/-- Python unpacking of a tuple into three names: fails with `ValueError`
unless the tuple has exactly three elements. -/
def pyUnpack3 {α : Type} (t : List α) : Except Err (α × α × α) :=
  match t with
  | [a, b, c] => Except.ok (a, b, c)
  | l => Except.error (Err.unpackMismatch 3 l.length)

theorem pyUnpack3_pair {α : Type} (a b : α) :
    pyUnpack3 [a, b] = Except.error (Err.unpackMismatch 3 2) := rfl

/-- Copy of an input into the output directory
(`fname_presuffix(path, newpath=self.output_dir)`). -/
def copiedPath (p : FPath) (output_dir : String) : FPath :=
  fname_presuffix p "" (some output_dir)

/-- Bias-corrected volume (the unifize tool's deterministic output,
spec section 5). -/
def unifizedPath (p : FPath) : FPath := fname_presuffix p "_unifized"

/-- Embedding of `CESTSession.coregister` (cest.py:50-199).  After input
checks, the first copy call reads `self.func`, which no constructor or
method ever sets — `AttributeError` for every session built by the class.
Were `func` present: with `prior_rigid_body_registration` the call at
cest.py:162-169 passes `self.output_dir` as the third positional argument
(`brain_volume`) and `self.brain_volume` as the fourth (`use_rats_tool`)
while also passing `use_rats_tool` by keyword — a Python `TypeError`; and
without it, cest.py:178-182 unpacks THREE names from `_warp`, which returns
a TWO-tuple — a `ValueError`.  The continuation past that point is written
out but unreachable. -/
def coregister (env : Env) (sess : CESTSession)
    (use_rats_tool : Bool := true) (prior_rigid_body_registration : Bool := false)
    (caching : Bool := false) (s : St) : St × Except Err CESTSession :=
  match _check_inputs s sess with
  | Except.error e => (s, Except.error e)
  | Except.ok _ =>
    let output_dir := sess.output_dir.getD env.cwd
    let overwrite := !caching
    match sess.func with
    | none => (s, Except.error (Err.attributeError "func"))
    | some func_file =>
      let cest_filename := copiedPath sess.cest output_dir
      let s := runTool s (Call.copy3d func_file cest_filename) [cest_filename]
      let anat_filename := copiedPath sess.anat output_dir
      let s := runTool s (Call.copy3d sess.anat anat_filename) [anat_filename]
      let unbiased_cest_filename := unifizedPath cest_filename
      let s := runTool s (Call.unifize cest_filename unbiased_cest_filename)
          [unbiased_cest_filename]
      let unbiased_anat_filename := unifizedPath anat_filename
      let s := runTool s (Call.unifize anat_filename unbiased_anat_filename)
          [unbiased_anat_filename]
      if prior_rigid_body_registration then
        (s, Except.error (Err.typeError "multiple values for use_rats_tool"))
      else
        match _warp env unbiased_anat_filename unbiased_cest_filename
            (some output_dir) caching overwrite s with
        | (s, Except.error e) => (s, Except.error e)
        | (s, Except.ok warp_result) =>
          match pyUnpack3 [warp_result.1, warp_result.2] with
          | Except.error e => (s, Except.error e)
          | Except.ok (registered_anat_oblique_filename, mat_filename, third) =>
            let transform_filename := fname_presuffix registered_anat_oblique_filename
                "_anat_to_cest.aff12.1D" none false
            let s := runTool s (Call.catmatvec mat_filename "ONELINE" transform_filename)
                [transform_filename]
            let output_files := [unbiased_cest_filename, unbiased_anat_filename, third]
            if caching then
              (s, Except.ok { sess with
                coreg_anat_ := some registered_anat_oblique_filename,
                coreg_transform_ := some transform_filename })
            else
              match removeAll output_files s with
              | (s, Except.error e) => (s, Except.error e)
              | (s, Except.ok _) =>
                (s, Except.ok { sess with
                  coreg_anat_ := some registered_anat_oblique_filename,
                  coreg_transform_ := some transform_filename })

/-- Embedding of `CESTSession.register_to_template` (cest.py:201-280):
input checks, then the coregistration-state check raising `ValueError`
("Anatomical image has not been registered ... use coreg first") BEFORE the
template attribute is set and before the anats-to-template collaborator is
invoked; then delegation, then `_transform_to_template` over the chain
[coreg transform, pre-transform, warp transform]. -/
def register_to_template (env : Env) (sess : CESTSession)
    (head_template_filename : FPath) (cest_voxel_size : Option (Int × Int × Int) := none)
    (caching : Bool := false) (s : St) : St × Except Err CESTSession :=
  match _check_inputs s sess with
  | Except.error e => (s, Except.error e)
  | Except.ok _ =>
    if sess.coreg_transform_.isNone then (s, Except.error Err.invalidState)
    else
      let sess1 := { sess with template_ := some head_template_filename }
      let registered_anat := env.anatsRegistered sess1.anat
      let s := runTool s (Call.anatsToTemplate sess1.anat head_template_filename)
          [registered_anat]
      let sess2 := { sess1 with registered_anat_ := some registered_anat }
      let transforms := [((sess.coreg_transform_.map FPath.str).getD ""),
                         env.anatsPreTransform sess2.anat, env.anatsTransform sess2.anat]
      match sess2.output_dir with
      | none => (s, Except.error (Err.typeError "chdir to None"))
      | some output_dir =>
        match _transform_to_template env sess2.cest head_template_filename output_dir
            transforms cest_voxel_size caching s with
        | (s, Except.error e) => (s, Except.error e)
        | (s, Except.ok normalized) =>
          (s, Except.ok { sess2 with registered_cest_ := some normalized })

/-- `_warp` always completes: whichever branch the matrix-existence check
takes, the result is the oblique-fixed volume and the matrix path. -/
theorem warp_total (env : Env) (a b : FPath) (wd0 : Option String)
    (caching overwrite : Bool) (s : St) :
    ∃ s1, _warp env a b wd0 caching overwrite s
      = (s1, Except.ok (fixObliquityPath (warpedPath a (wd0.getD a.dir)) overwrite,
                        warpMatPath a (wd0.getD a.dir))) := by
  by_cases h : warpMatPath a (wd0.getD a.dir) ∈
      (fixObliquity (runTool s (Call.warp3d a b b (warpedPath a (wd0.getD a.dir)))
        [warpedPath a (wd0.getD a.dir)]) (warpedPath a (wd0.getD a.dir)) b overwrite).fs
  · exact ⟨_, by simp only [_warp]; rw [if_pos h]⟩
  · exact ⟨_, by simp only [_warp]; rw [if_neg h]⟩

/-- A concrete session whose `cest` input file does not exist. -/
def sessMissing : CESTSession :=
  CESTSession.mkSession ⟨"/d", "missing", ".nii"⟩ refC none (some "/out")

/-- A concrete session with both inputs present and no coregistration
result. -/
def sessFresh : CESTSession := CESTSession.mkSession movC refC (some 400) (some "/out")

/-- C4 counterexample: a `CESTSession` on which coregistration has not
completed but whose `cest` input file is missing raises the missing-input
error (the `IOError` of `_check_inputs`, which runs first), NOT
`InvalidStateError` — so the claim is false for such sessions. -/
theorem C4_counterexample :
    sessMissing.coreg_transform_ = none ∧
    (register_to_template envC sessMissing movC none false stC).2
        = Except.error (Err.missingInput ⟨"/d", "missing", ".nii"⟩) ∧
    (register_to_template envC sessMissing movC none false stC).2
        ≠ Except.error Err.invalidState := by
  refine ⟨rfl, by decide, by decide⟩

/-- C4 (amended): for every `CESTSession` whose `cest` and `anat` inputs
exist on disk and on which coregistration has not completed (no
`coreg_transform_` stored), `register_to_template` fails with the
invalid-state error and returns the state unchanged: no collaborator call is
issued (the environment is arbitrary and unused) and no session attribute is
produced. -/
theorem C4_register_before_coreg_invalid_state (env : Env) (sess : CESTSession)
    (tmpl : FPath) (vs : Option (Int × Int × Int)) (caching : Bool) (s : St)
    (hcest : sess.cest ∈ s.fs) (hanat : sess.anat ∈ s.fs)
    (hco : sess.coreg_transform_ = none) :
    register_to_template env sess tmpl vs caching s = (s, Except.error Err.invalidState) := by
  simp [register_to_template, _check_inputs, hcest, hanat, hco]

/-- Concrete witness for C4: both inputs exist, coregistration absent, and
the call returns the invalid-state error with the state untouched. -/
theorem C4_witness :
    (sessFresh.cest ∈ stC.fs ∧ sessFresh.anat ∈ stC.fs ∧
      sessFresh.coreg_transform_ = none) ∧
    register_to_template envC sessFresh movC none false stC
      = (stC, Except.error Err.invalidState) :=
  ⟨⟨by decide, by decide, rfl⟩,
    C4_register_before_coreg_invalid_state envC sessFresh movC none false stC
      (by decide) (by decide) rfl⟩

/-- C8: for every `CESTSession` whose `cest` and `anat` inputs exist on
disk, `coregister` never completes: (i) when `func` is absent — as it is for
every session the class constructs — the very first copy call's argument
read fails with `AttributeError`; (ii) for EVERY value of `func` the call
errors, so no `coreg_anat_` / `coreg_transform_` result is ever produced;
(iii) even with `func` somehow present (and no prior rigid pass), the
three-name unpacking of `_warp`'s two-element result fails. -/
theorem C8_coregister_never_completes (env : Env) (sess : CESTSession)
    (rats prior caching : Bool) (s : St)
    (hcest : sess.cest ∈ s.fs) (hanat : sess.anat ∈ s.fs) :
    (sess.func = none →
      coregister env sess rats prior caching s
        = (s, Except.error (Err.attributeError "func"))) ∧
    (∃ e s1, coregister env sess rats prior caching s = (s1, Except.error e)) ∧
    (∀ f, sess.func = some f → prior = false →
      ∃ s1, coregister env sess rats prior caching s
          = (s1, Except.error (Err.unpackMismatch 3 2))) := by
  have hchk : _check_inputs s sess = Except.ok () := by
    simp [_check_inputs, hcest, hanat]
  have part1 : sess.func = none →
      coregister env sess rats prior caching s
        = (s, Except.error (Err.attributeError "func")) := by
    intro hf
    simp only [coregister, hchk, hf]
  have part3 : ∀ f, sess.func = some f → prior = false →
      ∃ s1, coregister env sess rats prior caching s
          = (s1, Except.error (Err.unpackMismatch 3 2)) := by
    intro f hf hp
    obtain ⟨s1, hw⟩ := warp_total env
      (unifizedPath (copiedPath sess.anat (sess.output_dir.getD env.cwd)))
      (unifizedPath (copiedPath sess.cest (sess.output_dir.getD env.cwd)))
      (some (sess.output_dir.getD env.cwd)) caching (!caching)
      (runTool (runTool (runTool (runTool s
        (Call.copy3d f (copiedPath sess.cest (sess.output_dir.getD env.cwd)))
        [copiedPath sess.cest (sess.output_dir.getD env.cwd)])
        (Call.copy3d sess.anat (copiedPath sess.anat (sess.output_dir.getD env.cwd)))
        [copiedPath sess.anat (sess.output_dir.getD env.cwd)])
        (Call.unifize (copiedPath sess.cest (sess.output_dir.getD env.cwd))
          (unifizedPath (copiedPath sess.cest (sess.output_dir.getD env.cwd))))
        [unifizedPath (copiedPath sess.cest (sess.output_dir.getD env.cwd))])
        (Call.unifize (copiedPath sess.anat (sess.output_dir.getD env.cwd))
          (unifizedPath (copiedPath sess.anat (sess.output_dir.getD env.cwd))))
        [unifizedPath (copiedPath sess.anat (sess.output_dir.getD env.cwd))])
    refine ⟨s1, ?_⟩
    simp only [coregister, hchk, hf, hp, Bool.false_eq_true, if_false]
    rw [hw]
    rfl
  have part2 : ∃ e s1, coregister env sess rats prior caching s = (s1, Except.error e) := by
    cases hf : sess.func with
    | none => exact ⟨Err.attributeError "func", s, part1 hf⟩
    | some f =>
      cases hp : prior with
      | true =>
        refine ⟨Err.typeError "multiple values for use_rats_tool",
          runTool (runTool (runTool (runTool s
            (Call.copy3d f (copiedPath sess.cest (sess.output_dir.getD env.cwd)))
            [copiedPath sess.cest (sess.output_dir.getD env.cwd)])
            (Call.copy3d sess.anat (copiedPath sess.anat (sess.output_dir.getD env.cwd)))
            [copiedPath sess.anat (sess.output_dir.getD env.cwd)])
            (Call.unifize (copiedPath sess.cest (sess.output_dir.getD env.cwd))
              (unifizedPath (copiedPath sess.cest (sess.output_dir.getD env.cwd))))
            [unifizedPath (copiedPath sess.cest (sess.output_dir.getD env.cwd))])
            (Call.unifize (copiedPath sess.anat (sess.output_dir.getD env.cwd))
              (unifizedPath (copiedPath sess.anat (sess.output_dir.getD env.cwd))))
            [unifizedPath (copiedPath sess.anat (sess.output_dir.getD env.cwd))], ?_⟩
        simp only [coregister, hchk, hf, hp]
        rfl
      | false =>
        obtain ⟨s1, h⟩ := part3 f hf hp
        rw [hp] at h
        exact ⟨Err.unpackMismatch 3 2, s1, h⟩
  exact ⟨part1, part2, part3⟩

/-- A hypothetical session with `func` forced present (no constructor or
method produces this), to exercise the unpack-arity failure. -/
def sessFunc : CESTSession := { sessFresh with func := some movC }

/-- Concrete witness for C8: inputs exist; the constructor-built session
fails with the attribute error; and with `func` forced present the call
fails with the three-from-two unpack error. -/
theorem C8_witness :
    (sessFresh.cest ∈ stC.fs ∧ sessFresh.anat ∈ stC.fs ∧ sessFresh.func = none) ∧
    coregister envC sessFresh true false false stC
      = (stC, Except.error (Err.attributeError "func")) ∧
    (∃ e s1, coregister envC sessFresh true false false stC = (s1, Except.error e)) ∧
    (∃ s1, coregister envC sessFunc true false false stC
        = (s1, Except.error (Err.unpackMismatch 3 2))) :=
  ⟨⟨by decide, by decide, rfl⟩,
    (C8_coregister_never_completes envC sessFresh true false false stC
      (by decide) (by decide)).1 rfl,
    (C8_coregister_never_completes envC sessFresh true false false stC
      (by decide) (by decide)).2.1,
    (C8_coregister_never_completes envC sessFunc true false false stC
      (by decide) (by decide)).2.2 movC rfl rfl⟩

/-! Embedding of `_per_slice_qwarp` (src/sammba/registration/base.py:222-444). -/

/-- A Python value as bound by the `write_dir` default assignment: the
trailing comma at base.py:228 (`write_dir = os.path.dirname(to_qwarp_file),`)
binds a one-element TUPLE, not a path string. -/
inductive PyVal where
  | str (s : String)
  | tuple (elems : List String)
deriving DecidableEq, Repr

/-- `os.path.join`: succeeds on a string, raises `TypeError` on a tuple. -/
def osPathJoin (v : PyVal) (sub : String) : Except Err String :=
  match v with
  | PyVal.str d => Except.ok (d ++ "/" ++ sub)
  | PyVal.tuple _ => Except.error (Err.typeError "os.path.join on tuple")

/-- The per-slice working directory under the write directory
(`os.path.join(write_dir, 'per_slice')`). -/
def perSliceDir (wd : String) : String := wd ++ "/" ++ "per_slice"

/-- Slice extraction output (`suffix='_sl%d'`, `newpath=per_slice_dir`). -/
def slPath (per_slice_dir : String) (vol : FPath) (i : Nat) : FPath :=
  fname_presuffix vol ("_sl" ++ toString i) (some per_slice_dir)

/-- `keep='{0} {0}'.format(slice_n)`. -/
def keepStr (i : Nat) : String := toString i ++ " " ++ toString i

/-- Resampling output (`suffix='_resampled'`). -/
def resampledPath (p : FPath) : FPath := fname_presuffix p "_resampled"

/-- Nonlinear warp output (`suffix='_qwarped'`). -/
def qwarpedPath (p : FPath) : FPath := fname_presuffix p "_qwarped"

/-- The warp field emitted by the slice warp (`source_warp`; deterministic
tool naming, spec section 5). -/
def warpFieldPath (p : FPath) : FPath := fname_presuffix (qwarpedPath p) "_WARP"

/-- First extra file produced by the `allineate` option
(`suffix='_Allin.nii'`, `use_ext=False`). -/
def allinNiiPath (p : FPath) : FPath := fname_presuffix (qwarpedPath p) "_Allin.nii" none false

/-- Second extra file produced by the `allineate` option
(`suffix='_Allin.aff12.1D'`, `use_ext=False`). -/
def allinAffPath (p : FPath) : FPath :=
  fname_presuffix (qwarpedPath p) "_Allin.aff12.1D" none false

/-- Merged per-slice volume (`suffix='_perslice'`, `newpath=write_dir`). -/
def persliceMergedPath (vol : FPath) (wd : String) : FPath :=
  fname_presuffix vol "_perslice" (some wd)

/-- numpy `array.max()`: the maximum, or a raise on an empty array. -/
def listMax : List Int → Option Int
  | [] => none
  | x :: xs => some (xs.foldl max x)

/-- One of the three slicing loops: cut out each listed slice of `vol`,
restore the obliquity from `parent` after each cut, collect the slice
paths in index order. -/
def sliceVolume (per_slice_dir : String) (vol parent : FPath) (overwrite : Bool) :
    List Nat → St → St × List FPath
  | [], s => (s, [])
  | i :: is, s =>
    let out := slPath per_slice_dir vol i
    let s := runTool s (Call.zcutup vol (keepStr i) out) [out]
    let s := fixObliquity s out parent overwrite
    let r := sliceVolume per_slice_dir vol parent overwrite is s
    (r.1, out :: r.2)

/-- One of the resampling loops: resample every listed file. -/
def resampleList : List FPath → St → St × List FPath
  | [], s => (s, [])
  | f :: rest, s =>
    let out := resampledPath f
    let s := runTool s (Call.resample f out) [out]
    let r := resampleList rest s
    (r.1, out :: r.2)

/-- The single-slice warp loop (base.py:309-347) over the zipped resampled
source/reference slice pairs.  Per pair: load both data arrays; if the
source maximum is zero — or, evaluated only then, the reference maximum is
zero — pass the resampled source slice through as the warped slice and
record a null transform; otherwise run the constrained nonlinear warp,
producing the warped slice, the slice transform, and the two extra files of
the allineate option (collected for cleanup).  Returns (warped slices,
per-slice transforms, extra output files), each in index order. -/
def qwarpLoop (env : Env) :
    List (FPath × FPath) → St →
      St × Except Err (List FPath × List (Option FPath) × List FPath)
  | [], s => (s, Except.ok ([], [], []))
  | pr :: rest, s =>
    match listMax (env.data pr.1) with
    | none => (s, Except.error Err.emptyData)
    | some msrc =>
      if msrc = 0 then
        match qwarpLoop env rest s with
        | (s1, Except.error e) => (s1, Except.error e)
        | (s1, Except.ok (ws, wf, ex)) => (s1, Except.ok (pr.1 :: ws, none :: wf, ex))
      else
        match listMax (env.data pr.2) with
        | none => (s, Except.error Err.emptyData)
        | some mref =>
          if mref = 0 then
            match qwarpLoop env rest s with
            | (s1, Except.error e) => (s1, Except.error e)
            | (s1, Except.ok (ws, wf, ex)) => (s1, Except.ok (pr.1 :: ws, none :: wf, ex))
          else
            let out := qwarpedPath pr.1
            let s := runTool s (Call.qwarp pr.1 pr.2 out)
                [out, warpFieldPath pr.1, allinNiiPath pr.1, allinAffPath pr.1]
            match qwarpLoop env rest s with
            | (s1, Except.error e) => (s1, Except.error e)
            | (s1, Except.ok (ws, wf, ex)) =>
              (s1, Except.ok (out :: ws, some (warpFieldPath pr.1) :: wf,
                allinNiiPath pr.1 :: allinAffPath pr.1 :: ex))

/-- The obliquity-restore loops over zipped (parent slice, produced slice)
pairs. -/
def fixPairs (overwrite : Bool) : List (FPath × FPath) → St → St
  | [], s => s
  | pr :: rest, s => fixPairs overwrite rest (fixObliquity s pr.2 pr.1 overwrite)

/-- The auxiliary application loop (base.py:400-413): apply each recorded
slice transform to the matching slice of the auxiliary volume, passing the
slice through unchanged when the transform is null. -/
def applyLoop : List (FPath × Option FPath) → St → St × List FPath
  | [], s => (s, [])
  | (sl, none) :: rest, s =>
    let r := applyLoop rest s
    (r.1, sl :: r.2)
  | (sl, some wfile) :: rest, s =>
    let out := qwarpedPath sl
    let s := runTool s (Call.nwarpApply sl sl wfile.str out) [out]
    let r := applyLoop rest s
    (r.1, out :: r.2)

/-- The closing cleanup of the stage (base.py:439-441): with caching the
intermediates persist, otherwise every collected path is `os.remove`d in
order, and the first missing file raises. -/
def cleanupTail (caching : Bool) (output_files : List FPath)
    (res : FPath × List (Option FPath) × Option FPath) (s : St) :
    St × Except Err (FPath × List (Option FPath) × Option FPath) :=
  if caching then (s, Except.ok res)
  else
    match removeAll output_files s with
    | (s1, Except.ok _) => (s1, Except.ok res)
    | (s1, Except.error e) => (s1, Except.error e)

/-- Embedding of `_per_slice_qwarp`.  With `write_dir` omitted the default
assignment binds a one-element tuple (trailing comma, base.py:228), so
building the `per_slice` directory path raises `TypeError` before any slice
is cut.  Otherwise: slice the reference and the source (each count read from
its own header), resample all slices, run the per-slice warp loop, resample
the warped slices back, restore obliquity, merge; optionally slice the
auxiliary volume and apply the recorded transforms per slice and merge; then
the cleanup removes every collected intermediate unless caching.
(Directory creation and metadata reads have no modelled effect.) -/
def _per_slice_qwarp (env : Env) (to_qwarp_file reference_file : FPath)
    (voxel_size_x voxel_size_y : Int) (apply_to_file : Option FPath := none)
    (write_dir : Option String := none) (caching : Bool := false)
    (overwrite : Bool := true) (s : St) :
    St × Except Err (FPath × List (Option FPath) × Option FPath) :=
  let wdVal : PyVal :=
    match write_dir with
    | none => PyVal.tuple [to_qwarp_file.dir]
    | some d => PyVal.str d
  match osPathJoin wdVal "per_slice" with
  | Except.error e => (s, Except.error e)
  | Except.ok per_slice_dir =>
    let wd := match wdVal with
      | PyVal.str d => d
      | PyVal.tuple _ => ""
    let reference_n_slices := env.nSlices reference_file
    let sr := sliceVolume per_slice_dir reference_file reference_file overwrite
        (List.range reference_n_slices) s
    let s := sr.1
    let sliced_reference_files := sr.2
    let n_slices := env.nSlices to_qwarp_file
    let sq := sliceVolume per_slice_dir to_qwarp_file to_qwarp_file overwrite
        (List.range n_slices) s
    let s := sq.1
    let sliced_to_qwarp_files := sq.2
    let rr := resampleList sliced_reference_files s
    let s := rr.1
    let resampled_sliced_reference_files := rr.2
    let rq := resampleList sliced_to_qwarp_files s
    let s := rq.1
    let resampled_sliced_to_qwarp_files := rq.2
    match qwarpLoop env
        (resampled_sliced_to_qwarp_files.zip resampled_sliced_reference_files) s with
    | (s, Except.error e) => (s, Except.error e)
    | (s, Except.ok (warped_slices, warp_files, qwarp_extra_files)) =>
      let rw2 := resampleList warped_slices s
      let s := rw2.1
      let resampled_warped_slices := rw2.2
      let s := fixPairs overwrite (sliced_reference_files.zip resampled_warped_slices) s
      let merged := persliceMergedPath to_qwarp_file wd
      let s := runTool s (Call.zcat resampled_warped_slices merged) [merged]
      let s := fixObliquity s merged reference_file overwrite
      let output_files := qwarp_extra_files ++ sliced_reference_files
        ++ sliced_to_qwarp_files ++ resampled_sliced_reference_files
        ++ resampled_sliced_to_qwarp_files ++ warped_slices ++ resampled_warped_slices
      match apply_to_file with
      | some apply_to =>
        let sa := sliceVolume per_slice_dir apply_to apply_to overwrite
            (List.range n_slices) s
        let s := sa.1
        let sliced_apply_to_files := sa.2
        let wa := applyLoop (sliced_apply_to_files.zip warp_files) s
        let s := wa.1
        let warped_apply_to_slices := wa.2
        let s := fixPairs overwrite (sliced_apply_to_files.zip warped_apply_to_slices) s
        let merged_apply := persliceMergedPath apply_to wd
        let s := runTool s (Call.zcat warped_apply_to_slices merged_apply) [merged_apply]
        let s := fixObliquity s merged_apply apply_to overwrite
        cleanupTail caching (output_files ++ sliced_apply_to_files ++ warped_apply_to_slices)
          (merged, warp_files, some merged_apply) s
      | none =>
        cleanupTail caching output_files (merged, warp_files, none) s

/-- C9: omitting `write_dir` makes `_per_slice_qwarp` fail before slicing
any volume: the trailing-comma default binds a one-element tuple, so the
`os.path.join` building the `per_slice` directory path raises `TypeError`;
the state is returned untouched — no slicer call was issued.  Callers must
supply an explicit `write_dir` for the operation to proceed. -/
theorem C9_write_dir_default_is_tuple (env : Env) (to_qwarp ref : FPath)
    (vx vy : Int) (apply_to : Option FPath) (caching overwrite : Bool) (s : St) :
    _per_slice_qwarp env to_qwarp ref vx vy apply_to none caching overwrite s
      = (s, Except.error (Err.typeError "os.path.join on tuple")) := rfl

/-- The degenerate-slice test the code applies to a resampled pair: either
maximum intensity equals zero. -/
def degSlice (env : Env) (pr : FPath × FPath) : Bool :=
  (listMax (env.data pr.1) == some 0) || (listMax (env.data pr.2) == some 0)

/-- Warped-slice path produced for a pair: the pass-through resampled source
when degenerate, the warp output otherwise. -/
def wsF (env : Env) (pr : FPath × FPath) : FPath :=
  if degSlice env pr then pr.1 else qwarpedPath pr.1

/-- Transform recorded for a pair: null when degenerate. -/
def wfF (env : Env) (pr : FPath × FPath) : Option FPath :=
  if degSlice env pr then none else some (warpFieldPath pr.1)

/-- Extra allineate files collected for cleanup, in index order. -/
def extraF (env : Env) : List (FPath × FPath) → List FPath
  | [] => []
  | pr :: rest =>
    (if degSlice env pr then [] else [allinNiiPath pr.1, allinAffPath pr.1]) ++ extraF env rest

theorem sliceVolume_snd (d : String) (vol parent : FPath) (ov : Bool)
    (is : List Nat) (s : St) :
    (sliceVolume d vol parent ov is s).2 = is.map (slPath d vol) := by
  induction is generalizing s with
  | nil => rfl
  | cons i t ih => simp [sliceVolume, ih]

theorem sliceVolume_nodup (d : String) (vol parent : FPath) (ov : Bool)
    (is : List Nat) (s : St) (h : s.fs.Nodup) :
    (sliceVolume d vol parent ov is s).1.fs.Nodup := by
  induction is generalizing s with
  | nil => exact h
  | cons i t ih =>
    exact ih _ (fixObliquity_nodup _ _ _ _ (runTool_nodup _ _ _ h))

theorem resampleList_snd (l : List FPath) (s : St) :
    (resampleList l s).2 = l.map resampledPath := by
  induction l generalizing s with
  | nil => rfl
  | cons f t ih => simp [resampleList, ih]

theorem resampleList_nodup (l : List FPath) (s : St) (h : s.fs.Nodup) :
    (resampleList l s).1.fs.Nodup := by
  induction l generalizing s with
  | nil => exact h
  | cons f t ih => exact ih _ (runTool_nodup _ _ _ h)

theorem fixPairs_nodup (ov : Bool) (l : List (FPath × FPath)) (s : St) (h : s.fs.Nodup) :
    (fixPairs ov l s).fs.Nodup := by
  induction l generalizing s with
  | nil => exact h
  | cons pr t ih => exact ih _ (fixObliquity_nodup _ _ _ _ h)

theorem zip_map_same {α β γ : Type} (f : α → β) (g : α → γ) (l : List α) :
    (l.map f).zip (l.map g) = l.map (fun a => (f a, g a)) := by
  induction l with
  | nil => rfl
  | cons a t ih => simp [ih]

/-- Successful run of the slice-warp loop when no slice has empty data: the
warped slices, recorded transforms and extra cleanup files follow the
degenerate-slice policy pair by pair, and no-duplicate file sets are
preserved. -/
theorem qwarpLoop_run (env : Env) (pairs : List (FPath × FPath)) (s : St)
    (hd : ∀ pr ∈ pairs, env.data pr.1 ≠ [] ∧ env.data pr.2 ≠ []) :
    ∃ s1, qwarpLoop env pairs s
        = (s1, Except.ok (pairs.map (wsF env), pairs.map (wfF env), extraF env pairs)) ∧
      (s.fs.Nodup → s1.fs.Nodup) := by
  induction pairs generalizing s with
  | nil => exact ⟨s, rfl, id⟩
  | cons pr rest ih =>
    have hd1 := hd pr (List.mem_cons_self pr rest)
    obtain ⟨m1, hm1⟩ : ∃ m, listMax (env.data pr.1) = some m := by
      cases hdata : env.data pr.1 with
      | nil => exact absurd hdata hd1.1
      | cons x xs => exact ⟨xs.foldl max x, rfl⟩
    obtain ⟨m2, hm2⟩ : ∃ m, listMax (env.data pr.2) = some m := by
      cases hdata : env.data pr.2 with
      | nil => exact absurd hdata hd1.2
      | cons x xs => exact ⟨xs.foldl max x, rfl⟩
    have hdrest : ∀ q ∈ rest, env.data q.1 ≠ [] ∧ env.data q.2 ≠ [] :=
      fun q hq => hd q (List.mem_cons_of_mem pr hq)
    by_cases h1 : m1 = 0
    · have hdeg : degSlice env pr = true := by
        simp [degSlice, hm1, h1]
      obtain ⟨s1, hrest, hnd⟩ := ih s hdrest
      refine ⟨s1, ?_, hnd⟩
      simp only [qwarpLoop, hm1]
      rw [if_pos h1, hrest]
      simp [wsF, wfF, extraF, hdeg]
    · by_cases h2 : m2 = 0
      · have hdeg : degSlice env pr = true := by
          simp [degSlice, hm2, h2]
        obtain ⟨s1, hrest, hnd⟩ := ih s hdrest
        refine ⟨s1, ?_, hnd⟩
        simp only [qwarpLoop, hm1]
        rw [if_neg h1]
        simp only [hm2]
        rw [if_pos h2, hrest]
        simp [wsF, wfF, extraF, hdeg]
      · have hdeg : degSlice env pr = false := by
          simp [degSlice, hm1, hm2, h1, h2]
        obtain ⟨s1, hrest, hnd⟩ := ih
          (runTool s (Call.qwarp pr.1 pr.2 (qwarpedPath pr.1))
            [qwarpedPath pr.1, warpFieldPath pr.1, allinNiiPath pr.1, allinAffPath pr.1])
          hdrest
        refine ⟨s1, ?_, fun h => hnd (runTool_nodup _ _ _ h)⟩
        simp only [qwarpLoop, hm1]
        rw [if_neg h1]
        simp only [hm2]
        rw [if_neg h2]
        rw [hrest]
        simp [wsF, wfF, extraF, hdeg]

/-- Resampled source slice `i` as fed to the warp loop. -/
def srcSl (wd : String) (tq : FPath) (i : Nat) : FPath :=
  resampledPath (slPath (perSliceDir wd) tq i)

/-- Resampled reference slice `i` as fed to the warp loop. -/
def refSl (wd : String) (ref : FPath) (i : Nat) : FPath :=
  resampledPath (slPath (perSliceDir wd) ref i)

/-- The zipped resampled slice pairs the warp loop iterates over. -/
def slicePairs (wd : String) (tq ref : FPath) (n : Nat) : List (FPath × FPath) :=
  (((List.range n).map (slPath (perSliceDir wd) tq)).map resampledPath).zip
    (((List.range n).map (slPath (perSliceDir wd) ref)).map resampledPath)

theorem slicePairs_def (wd : String) (tq ref : FPath) (n : Nat) :
    (((List.range n).map (slPath (perSliceDir wd) tq)).map resampledPath).zip
      (((List.range n).map (slPath (perSliceDir wd) ref)).map resampledPath)
    = slicePairs wd tq ref n := rfl

theorem slicePairs_eq_map (wd : String) (tq ref : FPath) (n : Nat) :
    slicePairs wd tq ref n
      = (List.range n).map (fun i => (srcSl wd tq i, refSl wd ref i)) := by
  simp only [slicePairs, List.map_map, zip_map_same]
  rfl

/-- The `output_files` collection of a run without an auxiliary volume, in
the order the source builds it. -/
def perSliceOutputs (env : Env) (wd : String) (tq ref : FPath) (n : Nat) : List FPath :=
  extraF env (slicePairs wd tq ref n)
  ++ (List.range n).map (slPath (perSliceDir wd) ref)
  ++ (List.range n).map (slPath (perSliceDir wd) tq)
  ++ ((List.range n).map (slPath (perSliceDir wd) ref)).map resampledPath
  ++ ((List.range n).map (slPath (perSliceDir wd) tq)).map resampledPath
  ++ (slicePairs wd tq ref n).map (wsF env)
  ++ ((slicePairs wd tq ref n).map (wsF env)).map resampledPath

/-- Every run of `_per_slice_qwarp` with an explicit write directory, equal
slice counts, no empty slice data and no auxiliary volume reaches the final
cleanup with the collected `output_files` and the per-slice transform list
of the degenerate-slice policy. -/
theorem perSlice_run (env : Env) (tq ref : FPath) (vx vy : Int) (wd : String)
    (caching overwrite : Bool) (s : St) (n : Nat)
    (hn1 : env.nSlices ref = n) (hn2 : env.nSlices tq = n)
    (hd : ∀ pr ∈ slicePairs wd tq ref n, env.data pr.1 ≠ [] ∧ env.data pr.2 ≠ []) :
    ∃ s1, (s.fs.Nodup → s1.fs.Nodup) ∧
      _per_slice_qwarp env tq ref vx vy none (some wd) caching overwrite s
        = cleanupTail caching (perSliceOutputs env wd tq ref n)
            (persliceMergedPath tq wd, (slicePairs wd tq ref n).map (wfF env), none) s1 := by
  obtain ⟨s1q, hqe, hndq⟩ := qwarpLoop_run env (slicePairs wd tq ref n)
    ((resampleList ((List.range n).map (slPath (perSliceDir wd) tq))
      ((resampleList ((List.range n).map (slPath (perSliceDir wd) ref))
        ((sliceVolume (perSliceDir wd) tq tq overwrite (List.range n)
          ((sliceVolume (perSliceDir wd) ref ref overwrite (List.range n) s).1)).1)).1)).1)
    hd
  simp only [_per_slice_qwarp, osPathJoin, hn1, hn2, sliceVolume_snd,
    resampleList_snd]
  simp only [← perSliceDir.eq_def]
  rw [slicePairs_def]
  rw [hqe]
  dsimp only
  refine ⟨_, ?_, rfl⟩
  intro h
  apply fixObliquity_nodup
  apply runTool_nodup
  apply fixPairs_nodup
  apply resampleList_nodup
  apply hndq
  apply resampleList_nodup
  apply resampleList_nodup
  apply sliceVolume_nodup
  apply sliceVolume_nodup
  exact h

/-- A cleanup loop that succeeds can have removed each path at most as often
as it existed on disk. -/
theorem removeAll_ok_count (l : List FPath) :
    ∀ (s s1 : St), removeAll l s = (s1, Except.ok ()) →
      ∀ p, l.count p ≤ s.fs.count p := by
  induction l with
  | nil => intro s s1 _ p; simp
  | cons q t ih =>
    intro s s1 h p
    by_cases hq : q ∈ s.fs
    · have hrm : removeFile s q = ({ s with fs := s.fs.erase q }, Except.ok ()) := by
        simp [removeFile, hq]
      rw [removeAll, hrm] at h
      have hle := ih _ _ h p
      by_cases hpq : p = q
      · subst hpq
        have h1 : 1 ≤ s.fs.count p := List.one_le_count_iff.mpr hq
        have h2 : (s.fs.erase p).count p = s.fs.count p - 1 := List.count_erase_self p s.fs
        simp only [h2] at hle
        rw [List.count_cons_self]
        omega
      · have h2 : (s.fs.erase q).count p = s.fs.count p := by
          rw [List.count_erase_of_ne hpq]
        simp only [h2] at hle
        rw [List.count_cons_of_ne hpq]
        omega
    · have hrm : removeFile s q = (s, Except.error (Err.fileNotFound q)) := by
        simp [removeFile, hq]
      rw [removeAll, hrm] at h
      exact absurd h (by simp)

/-- The cleanup loop only ever raises the file-not-found error. -/
theorem removeAll_error_shape (l : List FPath) :
    ∀ (s s1 : St) (e : Err), removeAll l s = (s1, Except.error e) →
      ∃ p, e = Err.fileNotFound p := by
  induction l with
  | nil => intro s s1 e h; exact absurd h (by simp [removeAll])
  | cons q t ih =>
    intro s s1 e h
    by_cases hq : q ∈ s.fs
    · have hrm : removeFile s q = ({ s with fs := s.fs.erase q }, Except.ok ()) := by
        simp [removeFile, hq]
      rw [removeAll, hrm] at h
      exact ih _ _ _ h
    · have hrm : removeFile s q = (s, Except.error (Err.fileNotFound q)) := by
        simp [removeFile, hq]
      rw [removeAll, hrm] at h
      refine ⟨q, ?_⟩
      have := congrArg Prod.snd h
      simpa using this.symm

/-- With caching disabled, a cleanup over a collection that names some path
twice must raise file-not-found: a duplicate-free disk cannot satisfy two
removals of the same path. -/
theorem cleanupTail_error (outs : List FPath)
    (res : FPath × List (Option FPath) × Option FPath) (s : St) (p : FPath)
    (hc : 2 ≤ outs.count p) (hnd : s.fs.Nodup) :
    ∃ q s1, cleanupTail false outs res s = (s1, Except.error (Err.fileNotFound q)) := by
  rcases hre : removeAll outs s with ⟨s2, r⟩
  cases r with
  | ok u =>
    exfalso
    have hle := removeAll_ok_count outs s s2 (by rw [hre]) p
    have hone : s.fs.count p ≤ 1 := List.nodup_iff_count_le_one.mp hnd p
    omega
  | error e =>
    obtain ⟨q, rfl⟩ := removeAll_error_shape outs s s2 e hre
    refine ⟨q, s2, ?_⟩
    simp [cleanupTail, hre]

/-- C10: for every run of `_per_slice_qwarp` with caching disabled (no
auxiliary volume) in which at least one slice pair triggers the
degenerate-slice pass-through and all external calls succeed, the final
cleanup loop raises file-not-found: the pass-through resampled source slice
path is collected both among the resampled source slices and among the
warped slices, so its second removal targets an already-deleted file. -/
theorem C10_passthrough_breaks_cleanup (env : Env) (tq ref : FPath) (vx vy : Int)
    (wd : String) (overwrite : Bool) (s : St) (n : Nat)
    (hn1 : env.nSlices ref = n) (hn2 : env.nSlices tq = n)
    (hnd : s.fs.Nodup)
    (hdata : ∀ pr ∈ slicePairs wd tq ref n, env.data pr.1 ≠ [] ∧ env.data pr.2 ≠ [])
    (hdeg : ∃ i, i < n ∧ degSlice env (srcSl wd tq i, refSl wd ref i) = true) :
    ∃ p s1, _per_slice_qwarp env tq ref vx vy none (some wd) false overwrite s
        = (s1, Except.error (Err.fileNotFound p)) := by
  obtain ⟨s1, hnd1, hrun⟩ := perSlice_run env tq ref vx vy wd false overwrite s n hn1 hn2 hdata
  obtain ⟨i, hi, hdegi⟩ := hdeg
  have hpair : (srcSl wd tq i, refSl wd ref i) ∈ slicePairs wd tq ref n := by
    rw [slicePairs_eq_map]
    exact List.mem_map.mpr ⟨i, List.mem_range.mpr hi, rfl⟩
  have hmem1 : srcSl wd tq i
      ∈ ((List.range n).map (slPath (perSliceDir wd) tq)).map resampledPath := by
    rw [List.map_map]
    exact List.mem_map.mpr ⟨i, List.mem_range.mpr hi, rfl⟩
  have hmem2 : srcSl wd tq i ∈ (slicePairs wd tq ref n).map (wsF env) := by
    refine List.mem_map.mpr ⟨(srcSl wd tq i, refSl wd ref i), hpair, ?_⟩
    simp [wsF, hdegi]
  have hc1 : 1 ≤ (((List.range n).map (slPath (perSliceDir wd) tq)).map resampledPath).count
      (srcSl wd tq i) := List.one_le_count_iff.mpr hmem1
  have hc2 : 1 ≤ ((slicePairs wd tq ref n).map (wsF env)).count (srcSl wd tq i) :=
    List.one_le_count_iff.mpr hmem2
  have hcount : 2 ≤ (perSliceOutputs env wd tq ref n).count (srcSl wd tq i) := by
    simp only [perSliceOutputs, List.count_append]
    omega
  obtain ⟨q, s2, hfail⟩ := cleanupTail_error (perSliceOutputs env wd tq ref n)
    (persliceMergedPath tq wd, (slicePairs wd tq ref n).map (wfF env), none)
    s1 (srcSl wd tq i) hcount (hnd1 hnd)
  exact ⟨q, s2, by rw [hrun]; exact hfail⟩

/-- Environment with one slice per volume whose data is all-zero: every
slice pair is degenerate. -/
def envZ : Env := { envC with nSlices := fun _ => 1, data := fun _ => [0] }

/-- Concrete witness for C10: one all-zero slice, caching disabled, no
auxiliary volume — the cleanup raises file-not-found. -/
theorem C10_witness :
    (envZ.nSlices refC = 1 ∧ envZ.nSlices movC = 1 ∧ stC.fs.Nodup ∧
      (∀ pr ∈ slicePairs "/w" movC refC 1, envZ.data pr.1 ≠ [] ∧ envZ.data pr.2 ≠ []) ∧
      (∃ i, i < 1 ∧ degSlice envZ (srcSl "/w" movC i, refSl "/w" refC i) = true)) ∧
    (∃ p s1, _per_slice_qwarp envZ movC refC 1 1 none (some "/w") false true stC
        = (s1, Except.error (Err.fileNotFound p))) :=
  ⟨⟨rfl, rfl, by decide, by decide, ⟨0, by decide, by decide⟩⟩,
    C10_passthrough_breaks_cleanup envZ movC refC 1 1 "/w" true stC 1 rfl rfl
      (by decide) (by decide) ⟨0, by decide, by decide⟩⟩

/-- A concrete slice whose data has a negative value and a zero: its maximum
is zero although it is not entirely zero-valued. -/
def paNeg : FPath := ⟨"/w", "sa", ".nii"⟩

/-- The concrete partner reference slice, with nonzero data. -/
def pbNeg : FPath := ⟨"/w", "sb", ".nii"⟩

/-- Environment for the C2 counterexample: the source slice holds the data
[-1, 0] (maximum zero, not all zero), every other volume holds [1]. -/
def envNeg : Env :=
  { envC with data := fun p => if p = paNeg then [-1, 0] else [1] }

/-- C2 counterexample: a slice pair in which NEITHER slice is entirely
zero-valued (the source data is [-1, 0]) nevertheless takes the pass-through
branch: the warp tool is not invoked (the state is unchanged — no call
logged) and a null transform is recorded.  This falsifies the claim's
"for every other slice, the nonlinear warp is invoked and a non-null slice
transform is recorded": the code tests `max() == 0`, not
"entirely zero-valued". -/
theorem C2_counterexample :
    ((envNeg.data paNeg).all (fun x => x == 0)) = false ∧
    ((envNeg.data pbNeg).all (fun x => x == 0)) = false ∧
    qwarpLoop envNeg [(paNeg, pbNeg)] stC = (stC, Except.ok ([paNeg], [none], [])) := by
  refine ⟨by decide, by decide, by decide⟩

/-- C2 (amended): the degenerate-slice policy of `_per_slice_qwarp`, with
the trigger as the code implements it — maximum intensity equal to zero
(which on the nonnegative images of practice coincides with "entirely
zero-valued").  (i) A slice pair whose source maximum is zero is passed
through: no warp invocation, the resampled source slice is the recorded
output, the transform is null (the reference data is not even consulted);
(ii) likewise when the source maximum is nonzero but the reference maximum
is zero; (iii) when both maxima are nonzero the warp tool is invoked and a
non-null transform is recorded; (iv) in a full cached run the returned
per-slice transform list records, at every index, null exactly for the
degenerate pairs. -/
theorem C2_degenerate_slice_policy :
    (∀ (env : Env) (src ref : FPath) (s : St),
      listMax (env.data src) = some 0 →
        qwarpLoop env [(src, ref)] s = (s, Except.ok ([src], [none], []))) ∧
    (∀ (env : Env) (src ref : FPath) (s : St) (m : Int),
      listMax (env.data src) = some m → m ≠ 0 → listMax (env.data ref) = some 0 →
        qwarpLoop env [(src, ref)] s = (s, Except.ok ([src], [none], []))) ∧
    (∀ (env : Env) (src ref : FPath) (s : St) (m1 m2 : Int),
      listMax (env.data src) = some m1 → m1 ≠ 0 →
      listMax (env.data ref) = some m2 → m2 ≠ 0 →
        qwarpLoop env [(src, ref)] s
          = (runTool s (Call.qwarp src ref (qwarpedPath src))
              [qwarpedPath src, warpFieldPath src, allinNiiPath src, allinAffPath src],
             Except.ok ([qwarpedPath src], [some (warpFieldPath src)],
               [allinNiiPath src, allinAffPath src]))) ∧
    (∀ (env : Env) (tq ref : FPath) (vx vy : Int) (wd : String) (overwrite : Bool)
      (s : St) (n : Nat),
      env.nSlices ref = n → env.nSlices tq = n →
      (∀ pr ∈ slicePairs wd tq ref n, env.data pr.1 ≠ [] ∧ env.data pr.2 ≠ []) →
        ∃ s1, _per_slice_qwarp env tq ref vx vy none (some wd) true overwrite s
          = (s1, Except.ok (persliceMergedPath tq wd,
              (List.range n).map (fun i => wfF env (srcSl wd tq i, refSl wd ref i)),
              none))) := by
  refine ⟨?_, ?_, ?_, ?_⟩
  · intro env src ref s hm
    simp only [qwarpLoop, hm]
    rw [if_pos trivial]
  · intro env src ref s m hm hne hr
    simp only [qwarpLoop, hm]
    rw [if_neg hne]
    simp only [hr]
    rw [if_pos trivial]
  · intro env src ref s m1 m2 hm1 hne1 hm2 hne2
    simp only [qwarpLoop, hm1]
    rw [if_neg hne1]
    simp only [hm2]
    rw [if_neg hne2]
  · intro env tq ref vx vy wd ov s n hn1 hn2 hdata
    obtain ⟨s1, _, hrun⟩ := perSlice_run env tq ref vx vy wd true ov s n hn1 hn2 hdata
    refine ⟨s1, ?_⟩
    rw [hrun]
    simp only [cleanupTail, if_pos rfl, slicePairs_eq_map, List.map_map]
    rfl

/-- Concrete witness for C2: each clause of the amended policy exercised at
concrete inputs — an all-zero slice passes through with a null transform, a
nonzero pair invokes the warp, and a full cached run returns the transform
list with null at the degenerate index. -/
theorem C2_witness :
    (listMax (envZ.data paNeg) = some 0 ∧
      qwarpLoop envZ [(paNeg, pbNeg)] stC = (stC, Except.ok ([paNeg], [none], []))) ∧
    (listMax (envC.data paNeg) = some 1 ∧
      qwarpLoop envC [(paNeg, pbNeg)] stC
        = (runTool stC (Call.qwarp paNeg pbNeg (qwarpedPath paNeg))
            [qwarpedPath paNeg, warpFieldPath paNeg, allinNiiPath paNeg, allinAffPath paNeg],
           Except.ok ([qwarpedPath paNeg], [some (warpFieldPath paNeg)],
             [allinNiiPath paNeg, allinAffPath paNeg]))) ∧
    (∃ s1, _per_slice_qwarp envZ movC refC 1 1 none (some "/w") true true stC
        = (s1, Except.ok (persliceMergedPath movC "/w",
            (List.range 1).map (fun i => wfF envZ (srcSl "/w" movC i, refSl "/w" refC i)),
            none))) :=
  ⟨⟨rfl, C2_degenerate_slice_policy.1 envZ paNeg pbNeg stC rfl⟩,
    ⟨rfl, C2_degenerate_slice_policy.2.2.1 envC paNeg pbNeg stC 1 1 rfl (by decide) rfl
      (by decide)⟩,
    C2_degenerate_slice_policy.2.2.2 envZ movC refC 1 1 "/w" true stC 1 rfl rfl
      (by decide)⟩
